import Mathlib

/-!
# Verification of the doctor-roster scheduling kernel

A shallow embedding, in Lean 4, of the scheduling kernel of the
doctor-roster backend (`backend/app`): the constraint validator
(`services/constraints.py`), the auto-builder (`services/auto_builder.py`),
the fairness balance computation (`services/fairness.py`), the schedule
lifecycle endpoints (`api/schedules.py`), the assignment endpoints
(`api/assignments.py`) and the shift endpoints (`api/shifts.py`).

The database is embedded as lists of records; SQLAlchemy `first()` queries
become `List.find?`, `count`/`sum` aggregates become `countP`/`sum` over
filtered lists, and inner joins drop rows whose foreign key does not
resolve.  Human-readable message strings and audit-log payloads carry no
information used by any property proved here and are omitted from the
embedded records.  Python `date` values are embedded as their proleptic
Gregorian ordinals (`date.toordinal`), so calendar-adjacent days are
adjacent integers.
-/

namespace DoctorRoster

/-- Nationality of a user (`app/models/user.py`). -/
inductive Nationality where
  | saudi
  | nonSaudi
deriving DecidableEq, Repr

/-- Lifecycle status of a schedule (`app/models/schedule.py`). -/
inductive ScheduleStatus where
  | draft
  | published
  | archived
deriving DecidableEq, Repr

/-- Status of a leave request (`app/models/leave.py`). -/
inductive LeaveStatus where
  | pending
  | approved
  | denied
  | cancelled
deriving DecidableEq, Repr

/-- Violation kinds of the constraint validator (`services/constraints.py`). -/
inductive ViolationType where
  | monthlyHoursExceeded
  | consecutiveNights
  | insufficientCoverage
  | leaveConflict
  | doubleBooking
  | invalidShiftForCenter
  | restPeriodViolation
deriving DecidableEq, Repr

/-- Severity levels of a violation (`services/constraints.py`). -/
inductive Severity where
  | error
  | warning
  | info
deriving DecidableEq, Repr

/-- A user row (`app/models/user.py`); only the fields the kernel reads. -/
structure UserRec where
  id : ℕ
  nationality : Nationality
deriving DecidableEq, Repr

/-- A doctor row (`app/models/doctor.py`); only the fields the kernel reads. -/
structure Doctor where
  id : ℕ
  userId : ℕ
  isActive : Bool
deriving DecidableEq, Repr

/-- A center row (`app/models/center.py`): `allowed_shifts` is a JSON list
of shift codes. -/
structure Center where
  id : ℕ
  code : String
  allowedShifts : List String
deriving DecidableEq, Repr

/-- A shift row (`app/models/shift.py`).  Wall-clock times are embedded as
minutes after midnight; Python `time` values compare in the same order. -/
structure Shift where
  id : ℕ
  code : String
  startTime : ℕ
  endTime : ℕ
  hours : ℤ
  isOvernight : Bool
deriving DecidableEq, Repr

/-- A coverage template row (`app/models/coverage_template.py`). -/
structure CoverageTemplate where
  centerId : ℕ
  shiftId : ℕ
  minDoctors : ℕ
  isMandatory : Bool
deriving DecidableEq, Repr

/-- A leave row (`app/models/leave.py`); dates are day ordinals. -/
structure Leave where
  doctorId : ℕ
  startDate : ℤ
  endDate : ℤ
  status : LeaveStatus
deriving DecidableEq, Repr

/-- A schedule row (`app/models/schedule.py`).  `publishedAt` is an abstract
timestamp (`None` embedded as `none`). -/
structure Schedule where
  id : ℕ
  year : ℕ
  month : ℕ
  status : ScheduleStatus
  publishedAt : Option ℤ
  publishedById : Option ℕ
deriving DecidableEq, Repr

/-- An assignment row (`app/models/assignment.py`); `date` is a day ordinal. -/
structure Assignment where
  id : ℕ
  scheduleId : ℕ
  doctorId : ℕ
  centerId : ℕ
  shiftId : ℕ
  date : ℤ
deriving DecidableEq, Repr

/-- The database: one list of rows per table. -/
structure DB where
  users : List UserRec
  doctors : List Doctor
  centers : List Center
  shifts : List Shift
  templates : List CoverageTemplate
  leaves : List Leave
  schedules : List Schedule
  assignments : List Assignment
deriving DecidableEq, Repr

/-- `db.query(Schedule).filter(Schedule.id == schedule_id).first()`. -/
def findSchedule (db : DB) (sid : ℕ) : Option Schedule :=
  db.schedules.find? (fun s => s.id == sid)

/-- `db.query(Doctor).filter(Doctor.id == doctor_id).first()`. -/
def findDoctor (db : DB) (did : ℕ) : Option Doctor :=
  db.doctors.find? (fun d => d.id == did)

/-- `db.query(Center).filter(Center.id == center_id).first()`. -/
def findCenter (db : DB) (cid : ℕ) : Option Center :=
  db.centers.find? (fun c => c.id == cid)

/-- `db.query(Shift).filter(Shift.id == shift_id).first()`. -/
def findShift (db : DB) (shid : ℕ) : Option Shift :=
  db.shifts.find? (fun s => s.id == shid)

/-- Lookup of a user row by id. -/
def findUser (db : DB) (uid : ℕ) : Option UserRec :=
  db.users.find? (fun u => u.id == uid)

/-- The `doctor.user` relationship (FK `doctors.user_id -> users.id`). -/
def doctorUser (db : DB) (doc : Doctor) : Option UserRec :=
  findUser db doc.userId

/-! ## Calendar arithmetic

The services compute the first and last day of a schedule's month with
`datetime.date` arithmetic.  We embed a date as its proleptic Gregorian
ordinal, mirroring `date.toordinal`, so that `timedelta(days=1)` is `+ 1`.
-/

/-- Gregorian leap-year rule. -/
def isLeapYear (y : ℕ) : Bool :=
  (y % 4 == 0 && y % 100 != 0) || (y % 400 == 0)

/-- Length of month `m` of year `y`. -/
def daysInMonth (y m : ℕ) : ℕ :=
  if m = 2 then (if isLeapYear y then 29 else 28)
  else if m = 4 ∨ m = 6 ∨ m = 9 ∨ m = 11 then 30
  else 31

/-- Days in all years before year `y` (year 1 is the first year). -/
def daysBeforeYear (y : ℕ) : ℕ :=
  365 * (y - 1) + (y - 1) / 4 - (y - 1) / 100 + (y - 1) / 400

/-- Days in the months of year `y` that precede month `m`. -/
def daysBeforeMonth (y m : ℕ) : ℕ :=
  ((List.range (m - 1)).map (fun i => daysInMonth y (i + 1))).sum

/-- `date(y, m, d).toordinal()`. -/
def dateOrd (y m d : ℕ) : ℤ :=
  ((daysBeforeYear y + daysBeforeMonth y m + d : ℕ) : ℤ)

/-- `start_date = date(schedule.year, schedule.month, 1)`. -/
def monthStart (y m : ℕ) : ℤ := dateOrd y m 1

/-- `end_date`: first day of the next month minus one day, exactly as the
services compute it (December wraps to January of the next year). -/
def monthEnd (y m : ℕ) : ℤ :=
  (if m = 12 then dateOrd (y + 1) 1 1 else dateOrd y (m + 1) 1) - 1

/-- The days iterated by `while current_date <= end_date`. -/
def monthDates (y m : ℕ) : List ℤ :=
  (List.range (monthEnd y m - monthStart y m + 1).toNat).map
    (fun i => monthStart y m + i)

/-! ## Constraint validator (`services/constraints.py`) -/

/-- A violation record; the human-readable `message`, `doctor_name`,
`center_name`, `shift_code` and `details` payloads are omitted. -/
structure Violation where
  vtype : ViolationType
  severity : Severity
  doctorId : Option ℕ := none
  centerId : Option ℕ := none
  shiftId : Option ℕ := none
  date : Option ℤ := none
deriving DecidableEq, Repr

/-- `ValidationResult` (`services/constraints.py`). -/
structure ValidationResult where
  is_valid : Bool
  violations : List Violation
  error_count : ℕ
  warning_count : ℕ
  info_count : ℕ
deriving DecidableEq, Repr

/-- `sum(1 for v in violations if v.severity == sev)`. -/
def countSeverity (vs : List Violation) (sev : Severity) : ℕ :=
  vs.countP (fun v => v.severity == sev)

/-- Assignments of one schedule
(`query(Assignment).filter(Assignment.schedule_id == schedule.id)`). -/
def scheduleAssignments (db : DB) (sid : ℕ) : List Assignment :=
  db.assignments.filter (fun a => a.scheduleId == sid)

/-- Hours contributed by one assignment row under the inner join with
`shifts`: rows whose shift id does not resolve contribute nothing. -/
def shiftHours (db : DB) (shid : ℕ) : ℤ :=
  match findShift db shid with
  | some s => s.hours
  | none => 0

/-- `Σ Shift.hours` over a doctor's assignments in one schedule
(the `doctor_hours` aggregate of `_validate_monthly_hours` and the
`total_hours` query of `_init_tracking`). -/
def doctorScheduleHours (db : DB) (sid did : ℕ) : ℤ :=
  ((db.assignments.filter
      (fun a => a.scheduleId == sid && a.doctorId == did)).map
    (fun a => shiftHours db a.shiftId)).sum

/-- `160 if user.nationality == Nationality.SAUDI else 192`. -/
def maxHoursOfUser (u : UserRec) : ℤ :=
  if u.nationality = Nationality.saudi then 160 else 192

/-- `ConstraintValidator._validate_monthly_hours`.  The 90% threshold
`total_hours > max_hours * 0.9` is embedded as `10 * total > 9 * max`,
which agrees with the float comparison on every integer total. -/
def _validate_monthly_hours (db : DB) (sched : Schedule) : List Violation :=
  let dids := ((scheduleAssignments db sched.id).map (fun a => a.doctorId)).dedup
  (dids.map (fun did =>
    match findDoctor db did with
    | none => []
    | some doc =>
      match doctorUser db doc with
      | none => []
      | some u =>
        let total := doctorScheduleHours db sched.id did
        let maxH := maxHoursOfUser u
        if total > maxH then
          [{ vtype := .monthlyHoursExceeded, severity := .error,
             doctorId := some did }]
        else if 10 * total > 9 * maxH then
          [{ vtype := .monthlyHoursExceeded, severity := .warning,
             doctorId := some did }]
        else [])).flatten

/-- Whether an assignment row joins to an overnight shift
(`.join(Shift)` + `Shift.is_overnight == True`). -/
def joinsOvernight (db : DB) (a : Assignment) : Bool :=
  match findShift db a.shiftId with
  | some s => s.isOvernight
  | none => false

/-- Stable insertion: place `x` before the first element it is
`le`-related to.  Used to embed Python's stable `sort`/`order_by`. -/
def insertSortedBy (le : α → α → Bool) (x : α) : List α → List α
  | [] => [x]
  | y :: ys => if le x y then x :: y :: ys else y :: insertSortedBy le x ys

/-- Stable insertion sort: equal elements keep their original order,
like Python's `list.sort` and SQL `ORDER BY`. -/
def sortListBy (le : α → α → Bool) (l : List α) : List α :=
  l.foldr (insertSortedBy le) []

/-- The `order_by(Assignment.doctor_id, Assignment.date)` key. -/
def nightOrder (a b : Assignment) : Bool :=
  a.doctorId < b.doctorId || (a.doctorId == b.doctorId && decide (a.date ≤ b.date))

/-- Adjacent-pair scan of `_validate_consecutive_shifts`: after sorting by
`(doctor_id, date)` the Python `groupby` + `prev_date` loop flags every
adjacent pair of rows of the same doctor whose dates differ by one day. -/
def consecPairs : List Assignment → List Violation
  | [] => []
  | [_] => []
  | x :: y :: rest =>
    (if x.doctorId == y.doctorId && y.date - x.date == 1 then
      [{ vtype := .consecutiveNights, severity := .warning,
         doctorId := some y.doctorId, date := some y.date }]
    else []) ++ consecPairs (y :: rest)

/-- `ConstraintValidator._validate_consecutive_shifts`. -/
def _validate_consecutive_shifts (db : DB) (sched : Schedule) : List Violation :=
  consecPairs (sortListBy nightOrder
    ((scheduleAssignments db sched.id).filter (fun a => joinsOvernight db a)))

/-- `func.count(Assignment.id)` over one `(schedule, center, shift, date)`
slot. -/
def countSlot (db : DB) (sid cid shid : ℕ) (d : ℤ) : ℕ :=
  db.assignments.countP (fun a =>
    a.scheduleId == sid && a.centerId == cid && a.shiftId == shid &&
      a.date == d)

/-- `query(CoverageTemplate).filter(CoverageTemplate.is_mandatory == True)`. -/
def mandatoryTemplates (db : DB) : List CoverageTemplate :=
  db.templates.filter (fun t => t.isMandatory)

/-- `ConstraintValidator._validate_coverage`. -/
def _validate_coverage (db : DB) (sched : Schedule) : List Violation :=
  ((monthDates sched.year sched.month).map (fun d =>
    ((mandatoryTemplates db).map (fun t =>
      if countSlot db sched.id t.centerId t.shiftId d < t.minDoctors then
        [{ vtype := .insufficientCoverage, severity := .error,
           centerId := some t.centerId, shiftId := some t.shiftId,
           date := some d }]
      else [])).flatten)).flatten

/-- The approved-leave query shared by the validator and the builder:
`Leave.doctor_id == did, Leave.status == APPROVED,
Leave.start_date <= d, Leave.end_date >= d` + `.first()`. -/
def leaveCovering (db : DB) (did : ℕ) (d : ℤ) : Option Leave :=
  db.leaves.find? (fun l =>
    l.doctorId == did && l.status == LeaveStatus.approved &&
      decide (l.startDate ≤ d) && decide (d ≤ l.endDate))

/-- `ConstraintValidator._validate_leave_conflicts`. -/
def _validate_leave_conflicts (db : DB) (sched : Schedule) : List Violation :=
  ((scheduleAssignments db sched.id).map (fun a =>
    match leaveCovering db a.doctorId a.date with
    | some _ =>
      [{ vtype := .leaveConflict, severity := .error,
         doctorId := some a.doctorId, date := some a.date }]
    | none => [])).flatten

/-- The distinct `(doctor_id, date)` keys of the `group_by` in
`_validate_double_bookings`. -/
def doubleKeys (db : DB) (sid : ℕ) : List (ℕ × ℤ) :=
  ((scheduleAssignments db sid).map (fun a => (a.doctorId, a.date))).dedup

/-- Row count of one `(doctor_id, date)` group within a schedule. -/
def countKey (db : DB) (sid : ℕ) (k : ℕ × ℤ) : ℕ :=
  (scheduleAssignments db sid).countP (fun a =>
    a.doctorId == k.1 && a.date == k.2)

/-- `ConstraintValidator._validate_double_bookings`
(`HAVING count > 1` over the `(doctor_id, date)` groups). -/
def _validate_double_bookings (db : DB) (sched : Schedule) : List Violation :=
  ((doubleKeys db sched.id).map (fun k =>
    if 1 < countKey db sched.id k then
      [{ vtype := .doubleBooking, severity := .error,
         doctorId := some k.1, date := some k.2 }]
    else [])).flatten

/-- `ConstraintValidator._validate_center_shifts`: rows whose center or
shift id does not resolve are silently skipped, as in the source. -/
def _validate_center_shifts (db : DB) (sched : Schedule) : List Violation :=
  ((scheduleAssignments db sched.id).map (fun a =>
    match findCenter db a.centerId, findShift db a.shiftId with
    | some c, some s =>
      if s.code ∈ c.allowedShifts then []
      else
        [{ vtype := .invalidShiftForCenter, severity := .error,
           doctorId := some a.doctorId, centerId := some c.id,
           shiftId := some s.id, date := some a.date }]
    | _, _ => [])).flatten

/-- The missing-entity result shared by both validator entry points. -/
def missingEntityResult : ValidationResult :=
  { is_valid := false
    violations := [{ vtype := .insufficientCoverage, severity := .error }]
    error_count := 1
    warning_count := 0
    info_count := 0 }

/-- `ConstraintValidator.validate_schedule`. -/
def validate_schedule (db : DB) (sid : ℕ) : ValidationResult :=
  match findSchedule db sid with
  | none => missingEntityResult
  | some sched =>
    let vs :=
      _validate_monthly_hours db sched ++
      _validate_consecutive_shifts db sched ++
      _validate_coverage db sched ++
      _validate_leave_conflicts db sched ++
      _validate_double_bookings db sched ++
      _validate_center_shifts db sched
    { is_valid := countSeverity vs Severity.error == 0
      violations := vs
      error_count := countSeverity vs Severity.error
      warning_count := countSeverity vs Severity.warning
      info_count := countSeverity vs Severity.info }

/-- `ConstraintValidator._get_doctor_monthly_hours`: hours over all
schedules of the given year and month (inner joins with both `shifts`
and `schedules`). -/
def _get_doctor_monthly_hours (db : DB) (did : ℕ) (year month : ℕ) : ℤ :=
  ((db.assignments.filter (fun a =>
      a.doctorId == did &&
      (match findSchedule db a.scheduleId with
       | some sch => sch.year == year && sch.month == month
       | none => false))).map
    (fun a => shiftHours db a.shiftId)).sum

/-- Whether the doctor has an overnight assignment on day `d` in this
schedule (the `prev_assignment` query of the candidate validator). -/
def hasOvernightOn (db : DB) (sid did : ℕ) (d : ℤ) : Bool :=
  (db.assignments.find? (fun a =>
    a.scheduleId == sid && a.doctorId == did && a.date == d &&
      joinsOvernight db a)).isSome

/-- `ConstraintValidator.validate_assignment` (candidate validation). -/
def validate_assignment (db : DB) (sid did cid shid : ℕ) (d : ℤ) :
    ValidationResult :=
  match findDoctor db did with
  | none => missingEntityResult
  | some doc =>
    let user? := doctorUser db doc
    let center? := findCenter db cid
    let shift? := findShift db shid
    let v1 : List Violation :=
      match center?, shift? with
      | some c, some s =>
        if s.code ∈ c.allowedShifts then []
        else
          [{ vtype := .invalidShiftForCenter, severity := .error,
             doctorId := some did, centerId := some cid,
             shiftId := some shid, date := some d }]
      | _, _ => []
    let v2 : List Violation :=
      match leaveCovering db did d with
      | some _ =>
        [{ vtype := .leaveConflict, severity := .error,
           doctorId := some did, date := some d }]
      | none => []
    let v3 : List Violation :=
      if (db.assignments.find? (fun a =>
          a.scheduleId == sid && a.doctorId == did && a.date == d)).isSome then
        [{ vtype := .doubleBooking, severity := .error,
           doctorId := some did, date := some d }]
      else []
    let v4 : List Violation :=
      match shift? with
      | some s =>
        if s.isOvernight && hasOvernightOn db sid did (d - 1) then
          [{ vtype := .consecutiveNights, severity := .warning,
             doctorId := some did, date := some d }]
        else []
      | none => []
    let v5 : List Violation :=
      match shift?, user? with
      | some s, some u =>
        (match findSchedule db sid with
         | some sch =>
           if _get_doctor_monthly_hours db did sch.year sch.month + s.hours >
               maxHoursOfUser u then
             [{ vtype := .monthlyHoursExceeded, severity := .warning,
                doctorId := some did }]
           else []
         | none => [])
      | _, _ => []
    let vs := v1 ++ v2 ++ v3 ++ v4 ++ v5
    { is_valid := countSeverity vs Severity.error == 0
      violations := vs
      error_count := countSeverity vs Severity.error
      warning_count := countSeverity vs Severity.warning
      info_count := 0 }

/-! ## Auto-builder (`services/auto_builder.py`)

The three tracking dictionaries (`_doctor_hours`, `_doctor_assignments`,
`_doctor_night_dates`) become three total functions in a `BuildState`;
`_init_tracking` populates them, for every doctor id, with exactly the
per-doctor queries of the source (for ids the source never touches the
value is irrelevant, and `dict.get(id, default)` agrees with the
initialising query on every id the loop reads).  Python sets of dates are
embedded as lists used only through membership. -/

/-- `BuildResult`: the `message` string is omitted; a warning is embedded
as the `(center code, shift code, date)` data its message interpolates. -/
structure BuildResult where
  success : Bool
  assignments_created : ℕ
  slots_unfilled : ℕ
  warnings : List (Option String × Option String × ℤ)
deriving DecidableEq, Repr

/-- Mutable state of one `build_schedule` run. -/
structure BuildState where
  db : DB
  hoursT : ℕ → ℤ
  assignedT : ℕ → List ℤ
  nightsT : ℕ → List ℤ
  created : ℕ
  unfilled : ℕ
  warnings : List (Option String × Option String × ℤ)

/-- `query(Doctor).filter(Doctor.is_active == True)`. -/
def activeDoctors (db : DB) : List Doctor :=
  db.doctors.filter (fun d => d.isActive)

/-- `AutoBuilder._is_on_leave`. -/
def _is_on_leave (db : DB) (did : ℕ) (d : ℤ) : Bool :=
  (leaveCovering db did d).isSome

/-- `AutoBuilder._get_max_hours` (defaults to the Saudi limit when the
doctor has no user row). -/
def _get_max_hours (db : DB) (doc : Doctor) : ℤ :=
  match doctorUser db doc with
  | some u => maxHoursOfUser u
  | none => 160

/-- The `_doctor_assignments` entry of `_init_tracking`. -/
def initAssigned (db : DB) (sid did : ℕ) : List ℤ :=
  ((db.assignments.filter (fun a =>
    a.scheduleId == sid && a.doctorId == did)).map (fun a => a.date))

/-- The `_doctor_night_dates` entry of `_init_tracking`. -/
def initNights (db : DB) (sid did : ℕ) : List ℤ :=
  ((db.assignments.filter (fun a =>
    a.scheduleId == sid && a.doctorId == did && joinsOvernight db a)).map
    (fun a => a.date))

/-- `AutoBuilder._init_tracking` plus the zeroed counters. -/
def initState (db : DB) (sid : ℕ) : BuildState :=
  { db := db
    hoursT := fun did => doctorScheduleHours db sid did
    assignedT := fun did => initAssigned db sid did
    nightsT := fun did => initNights db sid did
    created := 0
    unfilled := 0
    warnings := [] }

/-- The candidate list built by the filter loop of `_find_best_doctor`:
skip a doctor who is already assigned on the date, on approved leave, or
whose projected hours exceed the cap; otherwise record the doctor with
the score (current hours, plus 1000 when the shift is overnight and an
adjacent day is already a night for this doctor). -/
def buildCandidates (db : DB) (hoursT : ℕ → ℤ) (assignedT nightsT : ℕ → List ℤ)
    (doctors : List Doctor) (shift : Shift) (d : ℤ) : List (Doctor × ℤ) :=
  doctors.filterMap (fun doc =>
    if d ∈ assignedT doc.id then none
    else if _is_on_leave db doc.id d then none
    else if hoursT doc.id + shift.hours > _get_max_hours db doc then none
    else some (doc, hoursT doc.id +
      (if shift.isOvernight &&
          (decide ((d - 1) ∈ nightsT doc.id) ||
           decide ((d + 1) ∈ nightsT doc.id)) then 1000 else 0)))

/-- `candidates.sort(key=lambda x: x[1])` compares scores only. -/
def scoreOrder (p q : Doctor × ℤ) : Bool :=
  decide (p.2 ≤ q.2)

/-- `AutoBuilder._find_best_doctor`: `None` when the shift or center is
missing or the shift code is not allowed at the center; otherwise the
first element (`candidates[0][0]`) of the stably score-sorted candidate
list, `None` when no candidate survives the filters. -/
def _find_best_doctor (db : DB) (hoursT : ℕ → ℤ)
    (assignedT nightsT : ℕ → List ℤ) (doctors : List Doctor)
    (cid shid : ℕ) (d : ℤ) : Option Doctor :=
  match findShift db shid, findCenter db cid with
  | some shift, some center =>
    if shift.code ∈ center.allowedShifts then
      ((sortListBy scoreOrder
          (buildCandidates db hoursT assignedT nightsT doctors shift d)).head?).map
        (fun c => c.1)
    else none
  | _, _ => none

/-- `db.add(assignment)` (new rows are appended; the autoincremented
primary key carries no information used here and is embedded as 0). -/
def appendAssignment (db : DB) (a : Assignment) : DB :=
  { db with assignments := db.assignments ++ [a] }

/-- Pointwise update of a tracking function at one doctor id. -/
def setFun (f : ℕ → α) (k : ℕ) (v : α) : ℕ → α :=
  fun x => if x = k then v else f x

/-- One iteration of the `for _ in range(needed)` body: assign the best
doctor and update the tallies, or count the slot as unfilled and record a
warning. -/
def fillOne (sid : ℕ) (doctors : List Doctor) (t : CoverageTemplate)
    (d : ℤ) (st : BuildState) : BuildState :=
  match _find_best_doctor st.db st.hoursT st.assignedT st.nightsT doctors
      t.centerId t.shiftId d with
  | some doc =>
    let shift? := findShift st.db t.shiftId
    let hrs : ℤ := match shift? with | some s => s.hours | none => 0
    let isNight : Bool := match shift? with | some s => s.isOvernight | none => false
    { db := appendAssignment st.db
        { id := 0, scheduleId := sid, doctorId := doc.id,
          centerId := t.centerId, shiftId := t.shiftId, date := d }
      hoursT := setFun st.hoursT doc.id (st.hoursT doc.id + hrs)
      assignedT := setFun st.assignedT doc.id (d :: st.assignedT doc.id)
      nightsT :=
        if isNight then setFun st.nightsT doc.id (d :: st.nightsT doc.id)
        else st.nightsT
      created := st.created + 1
      unfilled := st.unfilled
      warnings := st.warnings }
  | none =>
    { st with
      unfilled := st.unfilled + 1
      warnings := st.warnings ++
        [((findCenter st.db t.centerId).map (fun c => c.code),
          (findShift st.db t.shiftId).map (fun s => s.code), d)] }

/-- `for _ in range(needed)`. -/
def fillN (sid : ℕ) (doctors : List Doctor) (t : CoverageTemplate) (d : ℤ) :
    ℕ → BuildState → BuildState
  | 0, st => st
  | n + 1, st => fillN sid doctors t d n (fillOne sid doctors t d st)

/-- One template on one day: `needed = min_doctors - existing_count`
(`range` of a non-positive number is empty, as is `ℕ` subtraction). -/
def processTemplate (sid : ℕ) (doctors : List Doctor) (d : ℤ)
    (st : BuildState) (t : CoverageTemplate) : BuildState :=
  fillN sid doctors t d (t.minDoctors - countSlot st.db sid t.centerId t.shiftId d) st

/-- `for template in templates` on one day. -/
def processDay (sid : ℕ) (doctors : List Doctor)
    (templates : List CoverageTemplate) (st : BuildState) (d : ℤ) : BuildState :=
  templates.foldl (processTemplate sid doctors d) st

/-- The `while current_date <= end_date` loop. -/
def runDays (sid : ℕ) (doctors : List Doctor)
    (templates : List CoverageTemplate) (dates : List ℤ) (st : BuildState) :
    BuildState :=
  dates.foldl (processDay sid doctors templates) st

/-- `query(Assignment).filter(Assignment.schedule_id == sid).delete()`. -/
def clearAssignments (db : DB) (sid : ℕ) : DB :=
  { db with assignments := db.assignments.filter (fun a => a.scheduleId != sid) }

/-- `AutoBuilder.build_schedule`.  Returns the `BuildResult` and the
database state after the transaction: the three early returns happen
before `db.commit()`, so their transaction is rolled back and the stored
state is unchanged; the main path commits the cleared-plus-created rows. -/
def build_schedule (db : DB) (sid : ℕ) (clear_existing : Bool) :
    BuildResult × DB :=
  match findSchedule db sid with
  | none =>
    ({ success := false, assignments_created := 0, slots_unfilled := 0,
       warnings := [] }, db)
  | some sched =>
    let db1 := if clear_existing then clearAssignments db sid else db
    if mandatoryTemplates db1 = [] then
      ({ success := false, assignments_created := 0, slots_unfilled := 0,
         warnings := [] }, db)
    else if activeDoctors db1 = [] then
      ({ success := false, assignments_created := 0, slots_unfilled := 0,
         warnings := [] }, db)
    else
      let stF := runDays sid (activeDoctors db1) (mandatoryTemplates db1)
        (monthDates sched.year sched.month) (initState db1 sid)
      ({ success := stF.unfilled == 0
         assignments_created := stF.created
         slots_unfilled := stF.unfilled
         warnings := stF.warnings.take 50 }, stF.db)

/-! ## HTTP endpoints (`api/schedules.py`, `api/assignments.py`,
`api/shifts.py`)

An `HTTPException` is embedded as an `ApiError` carrying its status code;
authentication, audit logging and response serialisation are external
collaborators and are not modelled. -/

/-- An `HTTPException(status_code=...)`. -/
structure ApiError where
  code : ℕ
deriving DecidableEq, Repr

/-- Persisting a mutated schedule row (`db.commit()`). -/
def updateScheduleRow (db : DB) (s : Schedule) : DB :=
  { db with schedules := db.schedules.map (fun t => if t.id = s.id then s else t) }

/-- `publish_schedule` (`api/schedules.py`): draft only; sets status,
`published_at = utcnow()` (the abstract timestamp `now`) and
`published_by_id`. -/
def publish_schedule (db : DB) (sid : ℕ) (now : ℤ) (uid : ℕ) :
    Except ApiError (Schedule × DB) :=
  match findSchedule db sid with
  | none => .error ⟨404⟩
  | some sched =>
    if sched.status ≠ ScheduleStatus.draft then .error ⟨400⟩
    else
      let s' := { sched with status := ScheduleStatus.published,
                             publishedAt := some now,
                             publishedById := some uid }
      .ok (s', updateScheduleRow db s')

/-- `unpublish_schedule`: published only; back to draft, clearing the
publish timestamp and user. -/
def unpublish_schedule (db : DB) (sid : ℕ) : Except ApiError (Schedule × DB) :=
  match findSchedule db sid with
  | none => .error ⟨404⟩
  | some sched =>
    if sched.status ≠ ScheduleStatus.published then .error ⟨400⟩
    else
      let s' := { sched with status := ScheduleStatus.draft,
                             publishedAt := none,
                             publishedById := none }
      .ok (s', updateScheduleRow db s')

/-- `archive_schedule`: rejected only when already archived; only the
status field is changed. -/
def archive_schedule (db : DB) (sid : ℕ) : Except ApiError (Schedule × DB) :=
  match findSchedule db sid with
  | none => .error ⟨404⟩
  | some sched =>
    if sched.status = ScheduleStatus.archived then .error ⟨400⟩
    else
      let s' := { sched with status := ScheduleStatus.archived }
      .ok (s', updateScheduleRow db s')

/-- `unarchive_schedule`: archived only; back to draft, clearing the
publish timestamp and user. -/
def unarchive_schedule (db : DB) (sid : ℕ) : Except ApiError (Schedule × DB) :=
  match findSchedule db sid with
  | none => .error ⟨404⟩
  | some sched =>
    if sched.status ≠ ScheduleStatus.archived then .error ⟨400⟩
    else
      let s' := { sched with status := ScheduleStatus.draft,
                             publishedAt := none,
                             publishedById := none }
      .ok (s', updateScheduleRow db s')

/-- `auto_build_schedule` (`api/schedules.py`): 404 when the schedule is
missing, otherwise it runs the builder directly — the handler performs no
schedule-status check. -/
def auto_build_endpoint (db : DB) (sid : ℕ) (clear : Bool) :
    Except ApiError (BuildResult × DB) :=
  match findSchedule db sid with
  | none => .error ⟨404⟩
  | some _ => .ok (build_schedule db sid clear)

/-- Body of `POST /assignments` (`schemas/assignment.py`). -/
structure AssignmentCreate where
  schedule_id : ℕ
  doctor_id : ℕ
  center_id : ℕ
  shift_id : ℕ
  date : ℤ
deriving DecidableEq, Repr

/-- `create_assignment` (`api/assignments.py`): 400 when the doctor
already has an assignment on the date in this schedule, otherwise the row
is inserted — with no schedule-status check. -/
def create_assignment (db : DB) (ac : AssignmentCreate) :
    Except ApiError (Assignment × DB) :=
  if (db.assignments.find? (fun a =>
      a.scheduleId == ac.schedule_id && a.doctorId == ac.doctor_id &&
        a.date == ac.date)).isSome then
    .error ⟨400⟩
  else
    let a : Assignment :=
      { id := 0, scheduleId := ac.schedule_id, doctorId := ac.doctor_id,
        centerId := ac.center_id, shiftId := ac.shift_id, date := ac.date }
    .ok (a, { db with assignments := db.assignments ++ [a] })

/-- Body of `PATCH /assignments/{id}`; unset fields leave the row
unchanged (`exclude_unset`).  The `is_pediatrics` flag is not read by the
kernel and is omitted. -/
structure AssignmentUpdate where
  center_id : Option ℕ := none
  shift_id : Option ℕ := none
deriving DecidableEq, Repr

/-- Applying the patch to a row. -/
def applyAssignmentUpdate (a : Assignment) (u : AssignmentUpdate) : Assignment :=
  { a with centerId := u.center_id.getD a.centerId,
           shiftId := u.shift_id.getD a.shiftId }

/-- `update_assignment` (`api/assignments.py`): 404 when the row is
missing, otherwise the patch is applied — with no schedule-status check. -/
def update_assignment (db : DB) (aid : ℕ) (u : AssignmentUpdate) :
    Except ApiError (Assignment × DB) :=
  match db.assignments.find? (fun a => a.id == aid) with
  | none => .error ⟨404⟩
  | some a =>
    let a' := applyAssignmentUpdate a u
    .ok (a', { db with
      assignments := db.assignments.map (fun b => if b.id = aid then a' else b) })

/-- `delete_assignment` (`api/assignments.py`): 404 when the row is
missing, otherwise the row is deleted (by primary key) — with no
schedule-status check. -/
def delete_assignment (db : DB) (aid : ℕ) : Except ApiError DB :=
  match db.assignments.find? (fun a => a.id == aid) with
  | none => .error ⟨404⟩
  | some _ =>
    .ok { db with assignments := db.assignments.filter (fun a => a.id != aid) }

/-- Body of `POST /shifts` (`schemas/shift.py`): `is_overnight` is an
ordinary optional boolean field defaulting to `False`; the schema imposes
no relation between it and the start and end times. -/
structure ShiftCreate where
  code : String
  start_time : ℕ
  end_time : ℕ
  hours : ℤ
  is_overnight : Bool := false
deriving DecidableEq, Repr

/-- The shift row built from a create body (`Shift(**shift.model_dump())`;
the autoincremented primary key is embedded as 0). -/
def shiftFromCreate (sc : ShiftCreate) : Shift :=
  { id := 0, code := sc.code, startTime := sc.start_time,
    endTime := sc.end_time, hours := sc.hours,
    isOvernight := sc.is_overnight }

/-- `create_shift` (`api/shifts.py`): 400 on a duplicate code, otherwise
every supplied field — `is_overnight` included — is stored verbatim. -/
def create_shift (db : DB) (sc : ShiftCreate) : Except ApiError (Shift × DB) :=
  if (db.shifts.find? (fun s => s.code == sc.code)).isSome then .error ⟨400⟩
  else
    .ok (shiftFromCreate sc,
      { db with shifts := db.shifts ++ [shiftFromCreate sc] })

/-- Body of `PATCH /shifts/{id}` (`schemas/shift.py`). -/
structure ShiftUpdate where
  code : Option String := none
  start_time : Option ℕ := none
  end_time : Option ℕ := none
  hours : Option ℤ := none
  is_overnight : Option Bool := none
deriving DecidableEq, Repr

/-- Applying the patch to a shift row (`exclude_unset` semantics). -/
def applyShiftUpdate (s : Shift) (u : ShiftUpdate) : Shift :=
  { s with code := u.code.getD s.code,
           startTime := u.start_time.getD s.startTime,
           endTime := u.end_time.getD s.endTime,
           hours := u.hours.getD s.hours,
           isOvernight := u.is_overnight.getD s.isOvernight }

/-- `update_shift` (`api/shifts.py`): 404 when the row is missing,
otherwise the supplied fields are stored verbatim with no validation. -/
def update_shift (db : DB) (shid : ℕ) (u : ShiftUpdate) :
    Except ApiError (Shift × DB) :=
  match findShift db shid with
  | none => .error ⟨404⟩
  | some s =>
    let s' := applyShiftUpdate s u
    .ok (s', { db with
      shifts := db.shifts.map (fun t => if t.id = shid then s' else t) })

/-! ## Fairness balance (`services/fairness.py`)

`_calculate_balance` divides the sample standard deviation by the mean.
Counts and hours are exact numbers (floats idealised as rationals); since
`statistics.stdev` is a square root, the function is embedded as a
relation between the input vector and the returned score, with the
standard deviation characterised by `sd ≥ 0 ∧ sd² = sample variance`
(`stdev` is defined only for two or more values; the source substitutes
0 for shorter vectors, matching a vanishing variance). -/

/-- `not values or all(v == 0 for v in values)` (`all` of an empty vector
is also true). -/
def allZero (v : List ℚ) : Bool :=
  v.all (fun x => x == 0)

/-- `statistics.mean`. -/
def meanQ (v : List ℚ) : ℚ :=
  v.sum / v.length

/-- The square of `statistics.stdev` (sample variance, denominator
`n - 1`), with the source's substitution of 0 for vectors of length at
most one. -/
def sampleVarianceQ (v : List ℚ) : ℚ :=
  if v.length ≤ 1 then 0
  else ((v.map (fun x => (x - meanQ v) ^ 2)).sum) / ((v.length : ℚ) - 1)

/-- `FairnessService._calculate_balance` as a relation between the input
vector and the returned score: 100 when the vector is empty or all zero,
100 again when the mean vanishes, and otherwise
`max(0, 100 - (stdev/mean * 100) * 2)`. -/
def balanceSpec (v : List ℚ) (s : ℝ) : Prop :=
  if allZero v then s = 100
  else if meanQ v = 0 then s = 100
  else ∃ sd : ℝ, 0 ≤ sd ∧ sd ^ 2 = (sampleVarianceQ v : ℝ) ∧
    s = max 0 (100 - (sd / (meanQ v : ℝ) * 100) * 2)

/-- `overall_fairness = (night + weekend + holiday + hours) / 4`
(`FairnessService.calculate_fairness`), as a relation between the four
balance scores and the overall score. -/
def overallFairnessSpec (n w h hr o : ℝ) : Prop :=
  o = (n + w + h + hr) / 4

/-! ## Concrete database states used to instantiate the theorems -/

/-- The empty database. -/
def dbEmpty : DB :=
  { users := [], doctors := [], centers := [], shifts := [], templates := [],
    leaves := [], schedules := [], assignments := [] }

/-- A draft schedule for February 2025. -/
def schedW : Schedule :=
  { id := 1, year := 2025, month := 2, status := ScheduleStatus.draft,
    publishedAt := none, publishedById := none }

/-- A small catalog with one center, one 1-hour shift, one mandatory
template, one active Saudi doctor, and a fully covered February 2025. -/
def dbW : DB :=
  { users := [{ id := 1, nationality := Nationality.saudi }]
    doctors := [{ id := 1, userId := 1, isActive := true }]
    centers := [{ id := 1, code := "C1", allowedShifts := ["M8"] }]
    shifts := [{ id := 1, code := "M8", startTime := 480, endTime := 960,
                 hours := 1, isOvernight := false }]
    templates := [{ centerId := 1, shiftId := 1, minDoctors := 1,
                    isMandatory := true }]
    leaves := []
    schedules := [schedW]
    assignments := (monthDates 2025 2).map (fun d =>
      { id := 0, scheduleId := 1, doctorId := 1, centerId := 1, shiftId := 1,
        date := d }) }

/-- `schedW` after publication. -/
def schedPub : Schedule :=
  { schedW with status := ScheduleStatus.published, publishedAt := some 5,
                publishedById := some 7 }

/-- `dbW` with its schedule published. -/
def dbPub : DB :=
  { dbW with schedules := [schedPub] }

/-- `schedW` archived. -/
def schedArch : Schedule :=
  { schedW with status := ScheduleStatus.archived }

/-- `dbW` with its schedule archived. -/
def dbArch : DB :=
  { dbW with schedules := [schedArch] }

/-- A database whose doctor 1 (Saudi, cap 160) already holds a manually
inserted 200-hour assignment on 1 February 2025, while doctor 2
(non-Saudi, cap 192) can absorb the whole mandatory template. -/
def dbC3 : DB :=
  { users := [{ id := 1, nationality := Nationality.saudi },
              { id := 2, nationality := Nationality.nonSaudi }]
    doctors := [{ id := 1, userId := 1, isActive := true },
                { id := 2, userId := 2, isActive := true }]
    centers := [{ id := 1, code := "C1", allowedShifts := ["A", "B"] }]
    shifts := [{ id := 1, code := "A", startTime := 480, endTime := 840,
                 hours := 6, isOvernight := false },
               { id := 2, code := "B", startTime := 0, endTime := 0,
                 hours := 200, isOvernight := false }]
    templates := [{ centerId := 1, shiftId := 1, minDoctors := 1,
                    isMandatory := true }]
    leaves := []
    schedules := [schedW]
    assignments := [{ id := 0, scheduleId := 1, doctorId := 1, centerId := 1,
                      shiftId := 2, date := monthStart 2025 2 }] }

/-- A catalog used to exercise `_find_best_doctor` directly. -/
def dbTie : DB :=
  { users := [{ id := 1, nationality := Nationality.nonSaudi },
              { id := 2, nationality := Nationality.nonSaudi }]
    doctors := []
    centers := [{ id := 1, code := "C1", allowedShifts := ["M8"] }]
    shifts := [{ id := 1, code := "M8", startTime := 480, endTime := 960,
                 hours := 8, isOvernight := false }]
    templates := [], leaves := [], schedules := [], assignments := [] }

/-- A schedule row as `publish` rewrites it. -/
def publishedRow (sched : Schedule) (now : ℤ) (uid : ℕ) : Schedule :=
  { sched with status := ScheduleStatus.published
               publishedAt := some now
               publishedById := some uid }

/-- A schedule row as `unpublish`/`unarchive` rewrite it. -/
def draftRow (sched : Schedule) : Schedule :=
  { sched with status := ScheduleStatus.draft
               publishedAt := none
               publishedById := none }

/-- A schedule row as `archive` rewrites it. -/
def archivedRow (sched : Schedule) : Schedule :=
  { sched with status := ScheduleStatus.archived }

/-- A create body for a day shift flagged overnight. -/
def scDayOvernight : ShiftCreate :=
  { code := "X", start_time := 480, end_time := 960, hours := 8,
    is_overnight := true }

/-- A create body for a genuine overnight shift. -/
def scNight : ShiftCreate :=
  { code := "N12", start_time := 1320, end_time := 360, hours := 12,
    is_overnight := true }

/-- The single shift of `dbTie`. -/
def shiftTie : Shift :=
  { id := 1, code := "M8", startTime := 480, endTime := 960, hours := 8,
    isOvernight := false }

/-- A doctor with the larger id, listed first. -/
def docA : Doctor := { id := 2, userId := 2, isActive := true }

/-- A doctor with the smaller id, listed second. -/
def docB : Doctor := { id := 1, userId := 1, isActive := true }

/-- Fresh tracking: no hours tallied yet. -/
def noHours : ℕ → ℤ := fun _ => 0

/-- Fresh tracking: no dates recorded yet. -/
def noDates : ℕ → List ℤ := fun _ => []

/-- A create body inserting doctor 2 into the published February
schedule on its first day. -/
def acPub : AssignmentCreate :=
  { schedule_id := 1, doctor_id := 2, center_id := 1, shift_id := 1,
    date := monthStart 2025 2 }

/-- The builder loop touches only the assignment table, appending rows
of the schedule being built; every other table is untouched. -/
structure DbExtends (db0 db1 : DB) (sid : ℕ) : Prop where
  users_eq : db1.users = db0.users
  doctors_eq : db1.doctors = db0.doctors
  centers_eq : db1.centers = db0.centers
  shifts_eq : db1.shifts = db0.shifts
  templates_eq : db1.templates = db0.templates
  leaves_eq : db1.leaves = db0.leaves
  schedules_eq : db1.schedules = db0.schedules
  append : ∃ l, db1.assignments = db0.assignments ++ l ∧
    ∀ a ∈ l, a.scheduleId = sid

/-- Invariant of the builder loop for the hours cap: the hours tally is
exactly the stored per-doctor hour sum of the schedule, it never exceeds
the cap for any doctor of the candidate list, and doctors outside the
candidate list hold no hours in the schedule. -/
structure CapInv (db0 : DB) (sid : ℕ) (doctors : List Doctor)
    (st : BuildState) : Prop where
  users_eq : st.db.users = db0.users
  hours_acc : ∀ did : ℕ, st.hoursT did = doctorScheduleHours st.db sid did
  hours_cap : ∀ doc ∈ doctors, st.hoursT doc.id ≤ _get_max_hours db0 doc
  hours_other : ∀ did : ℕ, (∀ doc ∈ doctors, doc.id ≠ did) →
    doctorScheduleHours st.db sid did = 0

/-- The result shape the validator returns for a missing entity:
invalid, one single error violation of kind `insufficient_coverage`. -/
def missingShape (r : ValidationResult) : Prop :=
  r.is_valid = false ∧ r.error_count = 1 ∧ r.violations.length = 1 ∧
    ∀ v ∈ r.violations, v.vtype = ViolationType.insufficientCoverage

/-! ## Theorems -/

/-- C10: the validator never raises for a missing entity — a
`validate_schedule` call with an unknown schedule id, and a
`validate_assignment` call with an unknown doctor id, both return an
invalid result with exactly one error violation of kind
`insufficient_coverage` instead of throwing. -/
theorem validator_missing_entity (db : DB) (sid did cid shid : ℕ) (d : ℤ) :
    (findSchedule db sid = none → missingShape (validate_schedule db sid)) ∧
    (findDoctor db did = none →
      missingShape (validate_assignment db sid did cid shid d)) := by
  constructor
  · intro h
    simp [validate_schedule, h, missingShape, missingEntityResult]
  · intro h
    simp [validate_assignment, h, missingShape, missingEntityResult]

/-- Witness for C10 at the empty database. -/
theorem validator_missing_entity_witness :
    missingShape (validate_schedule dbEmpty 1) ∧
    missingShape (validate_assignment dbEmpty 1 1 1 1 0) :=
  ⟨(validator_missing_entity dbEmpty 1 1 1 1 0).1 rfl,
   (validator_missing_entity dbEmpty 1 1 1 1 0).2 rfl⟩

/-- C4: the schedule status state machine — `publish` succeeds exactly
from `draft`, setting the status to `published` and `published_at` to a
non-null timestamp, and returns a 400 error from any other status;
`unpublish` succeeds exactly from `published`, returning to `draft` and
clearing `published_at`; `archive` succeeds from `draft` or `published`
and returns 400 when already archived; `unarchive` succeeds exactly from
`archived`, returning to `draft`. -/
theorem schedule_state_machine (db : DB) (sid : ℕ) (now : ℤ) (uid : ℕ)
    (sched : Schedule) (hfind : findSchedule db sid = some sched) :
    (sched.status = ScheduleStatus.draft →
      publish_schedule db sid now uid =
        .ok (publishedRow sched now uid,
          updateScheduleRow db (publishedRow sched now uid))) ∧
    (sched.status ≠ ScheduleStatus.draft →
      publish_schedule db sid now uid = .error ⟨400⟩) ∧
    (sched.status = ScheduleStatus.published →
      unpublish_schedule db sid =
        .ok (draftRow sched, updateScheduleRow db (draftRow sched))) ∧
    (sched.status ≠ ScheduleStatus.published →
      unpublish_schedule db sid = .error ⟨400⟩) ∧
    (sched.status ≠ ScheduleStatus.archived →
      archive_schedule db sid =
        .ok (archivedRow sched, updateScheduleRow db (archivedRow sched))) ∧
    (sched.status = ScheduleStatus.archived →
      archive_schedule db sid = .error ⟨400⟩) ∧
    (sched.status = ScheduleStatus.archived →
      unarchive_schedule db sid =
        .ok (draftRow sched, updateScheduleRow db (draftRow sched))) ∧
    (sched.status ≠ ScheduleStatus.archived →
      unarchive_schedule db sid = .error ⟨400⟩) := by
  refine ⟨fun h => ?_, fun h => ?_, fun h => ?_, fun h => ?_, fun h => ?_,
    fun h => ?_, fun h => ?_, fun h => ?_⟩ <;>
    simp [publish_schedule, unpublish_schedule, archive_schedule,
      unarchive_schedule, publishedRow, draftRow, archivedRow, hfind, h]

/-- Witness for C4: publishing the draft February 2025 schedule succeeds
and records the timestamp, while unpublishing or unarchiving it is a 400
error. -/
theorem schedule_state_machine_witness :
    schedW.status = ScheduleStatus.draft ∧
    publish_schedule dbW 1 5 7 =
      .ok (publishedRow schedW 5 7, updateScheduleRow dbW (publishedRow schedW 5 7)) ∧
    unpublish_schedule dbW 1 = .error ⟨400⟩ ∧
    unarchive_schedule dbW 1 = .error ⟨400⟩ :=
  ⟨rfl, (schedule_state_machine dbW 1 5 7 schedW rfl).1 rfl,
    (schedule_state_machine dbW 1 5 7 schedW rfl).2.2.2.1 (by decide),
    (schedule_state_machine dbW 1 5 7 schedW rfl).2.2.2.2.2.2.2 (by decide)⟩

/-- C9 counterexample: `create_shift` accepts a shift whose
`is_overnight` flag is `true` although its end time (16:00) is strictly
after its start time (08:00), so acceptance does not imply
`is_overnight ⇔ end ≤ start`. -/
theorem shift_overnight_invariant_cex :
    create_shift dbEmpty scDayOvernight =
      .ok (shiftFromCreate scDayOvernight,
        { dbEmpty with shifts := [shiftFromCreate scDayOvernight] }) ∧
    (shiftFromCreate scDayOvernight).isOvernight = true ∧
    ¬ ((shiftFromCreate scDayOvernight).endTime ≤
       (shiftFromCreate scDayOvernight).startTime) := by
  exact ⟨rfl, rfl, by decide⟩

/-- C9 amended: `is_overnight` is an ordinary client-supplied flag.
`create_shift` accepts any shift whose code is fresh and stores every
supplied field — `is_overnight` included — verbatim, rejecting only a
duplicate code with a 400, and `update_shift` likewise stores the
supplied fields verbatim; no relation between `is_overnight` and the
start and end times is checked or established. -/
theorem shift_overnight_amended (db : DB) (sc : ShiftCreate) (shid : ℕ)
    (u : ShiftUpdate) :
    ((db.shifts.find? (fun s => s.code == sc.code)).isSome = false →
      create_shift db sc = .ok (shiftFromCreate sc,
        { db with shifts := db.shifts ++ [shiftFromCreate sc] })) ∧
    ((db.shifts.find? (fun s => s.code == sc.code)).isSome = true →
      create_shift db sc = .error ⟨400⟩) ∧
    (∀ s0, findShift db shid = some s0 →
      update_shift db shid u = .ok (applyShiftUpdate s0 u,
        { db with
          shifts := db.shifts.map (fun t =>
            if t.id = shid then applyShiftUpdate s0 u else t) })) := by
  refine ⟨fun h => ?_, fun h => ?_, fun s0 h => ?_⟩
  · simp [create_shift, h]
  · simp [create_shift, h]
  · simp [update_shift, h]

/-- Witness for C9 amended: a fresh overnight shift body is accepted and
stored verbatim by `create_shift` on the small catalog. -/
theorem shift_overnight_amended_witness :
    (dbW.shifts.find? (fun s => s.code == scNight.code)).isSome = false ∧
    create_shift dbW scNight =
      .ok (shiftFromCreate scNight,
        { dbW with shifts := dbW.shifts ++ [shiftFromCreate scNight] }) :=
  ⟨by decide, (shift_overnight_amended dbW scNight 1 {}).1 (by decide)⟩

/-- C2 counterexample: when the schedule id does not exist,
`build_schedule` returns `success = false` while `slots_unfilled = 0`,
so `success` is not equivalent to `slots_unfilled == 0` on the
early-return paths. -/
theorem build_success_iff_cex :
    ¬ ((build_schedule dbEmpty 1 false).1.success = true ↔
        (build_schedule dbEmpty 1 false).1.slots_unfilled = 0) := by
  decide

/-- C2 amended: on each of the three early-return paths (missing
schedule, no mandatory template, no active doctor) `build_schedule`
returns `success = false` with `slots_unfilled = 0`; on the main path
`success` is true exactly when `slots_unfilled` is zero. -/
theorem build_success_iff_amended (db : DB) (sid : ℕ) (clear : Bool) :
    ((findSchedule db sid = none ∨ mandatoryTemplates db = [] ∨
        activeDoctors db = []) →
      (build_schedule db sid clear).1.success = false ∧
      (build_schedule db sid clear).1.slots_unfilled = 0) ∧
    (findSchedule db sid ≠ none → mandatoryTemplates db ≠ [] →
      activeDoctors db ≠ [] →
      ((build_schedule db sid clear).1.success = true ↔
        (build_schedule db sid clear).1.slots_unfilled = 0)) := by
  cases hfs : findSchedule db sid with
  | none =>
    refine ⟨fun _ => ?_, fun hne _ _ => absurd rfl hne⟩
    simp [build_schedule, hfs]
  | some sched =>
    have hT : ∀ b : Bool,
        mandatoryTemplates (if b then clearAssignments db sid else db) =
          mandatoryTemplates db := by
      intro b; cases b <;> rfl
    have hD : ∀ b : Bool,
        activeDoctors (if b then clearAssignments db sid else db) =
          activeDoctors db := by
      intro b; cases b <;> rfl
    by_cases ht : mandatoryTemplates db = []
    · refine ⟨fun _ => ?_, fun _ ht' _ => absurd ht ht'⟩
      simp [build_schedule, hfs, hT, hD, ht]
    · by_cases hd : activeDoctors db = []
      · refine ⟨fun _ => ?_, fun _ _ hd' => absurd hd hd'⟩
        simp [build_schedule, hfs, hT, hD, ht, hd]
      · refine ⟨fun habs => ?_, fun _ _ _ => ?_⟩
        · rcases habs with h | h | h
          · exact absurd h (by simp)
          · exact absurd h ht
          · exact absurd h hd
        · simp [build_schedule, hfs, hT, hD, ht, hd]

/-- Witness for C2 amended: the main path runs on the small covered
catalog, and the equivalence holds there. -/
theorem build_success_iff_amended_witness :
    findSchedule dbW 1 ≠ none ∧ mandatoryTemplates dbW ≠ [] ∧
    activeDoctors dbW ≠ [] ∧
    ((build_schedule dbW 1 true).1.success = true ↔
      (build_schedule dbW 1 true).1.slots_unfilled = 0) :=
  ⟨by decide, by decide, by decide,
   (build_success_iff_amended dbW 1 true).2 (by decide) (by decide)
     (by decide)⟩

set_option maxRecDepth 16384 in
/-- C5: the draft-only gate is absent — against a published schedule,
assignment creation, update and deletion all succeed and mutate the
stored assignments, and against an archived schedule the auto-build
endpoint runs and creates assignments, although the source's own
documentation declares archived schedules read-only. -/
theorem draft_gate_absent :
    (create_assignment dbPub acPub).isOk = true ∧
    ((create_assignment dbPub acPub).toOption.map
      (fun p => p.2.assignments.length)) =
      some (dbPub.assignments.length + 1) ∧
    (update_assignment dbPub 0 { center_id := some 1 }).isOk = true ∧
    (delete_assignment dbPub 0).isOk = true ∧
    ((auto_build_endpoint dbArch 1 true).toOption.map
      (fun p => p.1.assignments_created)) = some 28 := by
  decide

theorem insertSortedBy_ne_nil (le : α → α → Bool) (x : α) (l : List α) :
    insertSortedBy le x l ≠ [] := by
  cases l with
  | nil => simp [insertSortedBy]
  | cons y ys => by_cases h : le x y <;> simp [insertSortedBy, h]

theorem sortListBy_eq_nil_iff (le : α → α → Bool) (l : List α) :
    sortListBy le l = [] ↔ l = [] := by
  cases l with
  | nil => simp [sortListBy]
  | cons x t =>
    show insertSortedBy le x (sortListBy le t) = [] ↔ x :: t = []
    simp [insertSortedBy_ne_nil]

theorem mem_insertSortedBy (le : α → α → Bool) (x y : α) (l : List α) :
    y ∈ insertSortedBy le x l ↔ y = x ∨ y ∈ l := by
  induction l with
  | nil => simp [insertSortedBy]
  | cons z t ih =>
    by_cases h : le x z
    · simp [insertSortedBy, h]
    · simp [insertSortedBy, h, ih]
      tauto

theorem mem_sortListBy (le : α → α → Bool) (y : α) (l : List α) :
    y ∈ sortListBy le l ↔ y ∈ l := by
  induction l with
  | nil => simp [sortListBy]
  | cons x t ih =>
    show y ∈ insertSortedBy le x (sortListBy le t) ↔ y ∈ x :: t
    rw [mem_insertSortedBy, ih]
    simp

/-- The head of the stable score sort is the first candidate, in the
original order, that attains the minimal score: the input splits around
it and every earlier candidate has a strictly larger score. -/
theorem sortListBy_score_head (l : List (Doctor × ℤ)) (c : Doctor × ℤ)
    (rest : List (Doctor × ℤ)) (h : sortListBy scoreOrder l = c :: rest) :
    ∃ l₁ l₂, l = l₁ ++ c :: l₂ ∧ (∀ p ∈ l, c.2 ≤ p.2) ∧
      ∀ p ∈ l₁, c.2 < p.2 := by
  induction l generalizing c rest with
  | nil => simp [sortListBy] at h
  | cons x t ih =>
    replace h : insertSortedBy scoreOrder x (sortListBy scoreOrder t) =
      c :: rest := h
    cases hs : sortListBy scoreOrder t with
    | nil =>
      rw [hs] at h
      have hxl : insertSortedBy scoreOrder x ([] : List (Doctor × ℤ)) = [x] := rfl
      rw [hxl] at h
      injection h with h1 h2
      subst h1
      have ht : t = [] := (sortListBy_eq_nil_iff _ t).mp hs
      subst ht
      exact ⟨[], [], rfl, by simp, by simp⟩
    | cons y ys =>
      rw [hs] at h
      by_cases hle : scoreOrder x y
      · rw [show insertSortedBy scoreOrder x (y :: ys) = x :: y :: ys from by
          simp [insertSortedBy, hle]] at h
        injection h with h1 h2
        subst h1
        obtain ⟨l₁, l₂, hdec, hmin, -⟩ := ih y ys hs
        have hxy : x.2 ≤ y.2 := of_decide_eq_true hle
        refine ⟨[], t, rfl, ?_, by simp⟩
        intro p hp
        rcases List.mem_cons.mp hp with rfl | hp
        · exact le_refl _
        · exact le_trans hxy (hmin p hp)
      · rw [show insertSortedBy scoreOrder x (y :: ys) =
            y :: insertSortedBy scoreOrder x ys from by
          simp [insertSortedBy, hle]] at h
        injection h with h1 h2
        subst h1
        obtain ⟨l₁, l₂, hdec, hmin, hpre⟩ := ih y ys hs
        have hyx : y.2 < x.2 := by
          have hn : ¬ (x.2 ≤ y.2) := fun hx => hle (decide_eq_true hx)
          exact lt_of_not_le hn
        refine ⟨x :: l₁, l₂, by rw [hdec]; rfl, ?_, ?_⟩
        · intro p hp
          rcases List.mem_cons.mp hp with rfl | hp
          · exact le_of_lt hyx
          · exact hmin p hp
        · intro p hp
          rcases List.mem_cons.mp hp with rfl | hp
          · exact hyx
          · exact hpre p hp

/-- Reduction of `_find_best_doctor` once the shift and center are
known to resolve. -/
theorem find_best_eq (db : DB) (hoursT : ℕ → ℤ)
    (assignedT nightsT : ℕ → List ℤ) (doctors : List Doctor) (cid shid : ℕ)
    (d : ℤ) (shift : Shift) (center : Center)
    (hs : findShift db shid = some shift)
    (hc : findCenter db cid = some center) :
    _find_best_doctor db hoursT assignedT nightsT doctors cid shid d =
      (if shift.code ∈ center.allowedShifts then
        ((sortListBy scoreOrder
            (buildCandidates db hoursT assignedT nightsT doctors
              shift d)).head?).map (fun c => c.1)
      else none) := by
  unfold _find_best_doctor
  rw [hs, hc]

/-- A doctor returned by `_find_best_doctor` passed every filter: the
shift resolves, the doctor is in the given list, is not already assigned
on the date, is not on approved leave, and the projected hours stay
within the cap. -/
theorem find_best_filters (db : DB) (hoursT : ℕ → ℤ)
    (assignedT nightsT : ℕ → List ℤ) (doctors : List Doctor) (cid shid : ℕ)
    (d : ℤ) (doc : Doctor)
    (h : _find_best_doctor db hoursT assignedT nightsT doctors cid shid d =
      some doc) :
    ∃ shift, findShift db shid = some shift ∧ doc ∈ doctors ∧
      d ∉ assignedT doc.id ∧ _is_on_leave db doc.id d = false ∧
      hoursT doc.id + shift.hours ≤ _get_max_hours db doc := by
  cases hsf : findShift db shid with
  | none =>
    unfold _find_best_doctor at h
    rw [hsf] at h
    simp at h
  | some shift =>
  cases hcf : findCenter db cid with
  | none =>
    unfold _find_best_doctor at h
    rw [hsf, hcf] at h
    simp at h
  | some center =>
  rw [find_best_eq db hoursT assignedT nightsT doctors cid shid d shift
    center hsf hcf] at h
  by_cases hallow : shift.code ∈ center.allowedShifts
  · rw [if_pos hallow] at h
    cases hsort : sortListBy scoreOrder
        (buildCandidates db hoursT assignedT nightsT doctors shift d) with
    | nil => rw [hsort] at h; simp at h
    | cons c rest =>
      rw [hsort] at h
      have hcdoc : c.1 = doc := by simpa using h
      have hcmem : c ∈ buildCandidates db hoursT assignedT nightsT doctors
          shift d := by
        have hm : c ∈ sortListBy scoreOrder
            (buildCandidates db hoursT assignedT nightsT doctors shift d) := by
          rw [hsort]; exact List.mem_cons_self _ _
        exact (mem_sortListBy _ _ _).mp hm
      obtain ⟨doc', hdoc', hf⟩ := List.mem_filterMap.mp hcmem
      by_cases h1 : d ∈ assignedT doc'.id
      · simp [h1] at hf
      · by_cases h2 : _is_on_leave db doc'.id d = true
        · simp [h1, h2] at hf
        · by_cases h3 : hoursT doc'.id + shift.hours > _get_max_hours db doc'
          · simp [h1, h2, h3] at hf
          · rw [if_neg h1, if_neg h2, if_neg h3] at hf
            have hpair := Option.some.inj hf
            have hd' : doc' = doc := by rw [← hcdoc, ← hpair]
            subst hd'
            refine ⟨shift, rfl, hdoc', h1, ?_, not_lt.mp h3⟩
            exact Bool.eq_false_iff.mpr h2
  · rw [if_neg hallow] at h
    simp at h

/-- C6 counterexample: with two surviving candidates of equal score 0,
listed with the larger doctor id first, `_find_best_doctor` returns the
doctor with id 2 — the earlier list entry — not the doctor with the
lowest id 1, so score ties are not broken by ascending `doctor_id`. -/
theorem find_best_doctor_cex :
    _find_best_doctor dbTie noHours noDates noDates [docA, docB] 1 1 100 =
      some docA ∧
    buildCandidates dbTie noHours noDates noDates [docA, docB] shiftTie 100 =
      [(docA, 0), (docB, 0)] ∧
    docB.id < docA.id := by
  exact ⟨by decide, by decide, by decide⟩

/-- C6 amended: given that the shift and center resolve and the shift
code is allowed at the center, `_find_best_doctor` returns `none` exactly
when no doctor survives the filters, and otherwise returns the earliest
doctor, in the order of the given doctor list, among those attaining the
minimal score (current hours plus 1000 when the shift is overnight and
the doctor has a night on an adjacent day); this coincides with the
lowest `doctor_id` only when the list is sorted by ascending id. -/
theorem find_best_doctor_amended (db : DB) (hoursT : ℕ → ℤ)
    (assignedT nightsT : ℕ → List ℤ) (doctors : List Doctor) (cid shid : ℕ)
    (d : ℤ) (shift : Shift) (center : Center)
    (hs : findShift db shid = some shift)
    (hc : findCenter db cid = some center)
    (hallow : shift.code ∈ center.allowedShifts) :
    (_find_best_doctor db hoursT assignedT nightsT doctors cid shid d =
        none ↔
      buildCandidates db hoursT assignedT nightsT doctors shift d = []) ∧
    (∀ doc,
      _find_best_doctor db hoursT assignedT nightsT doctors cid shid d =
        some doc →
      ∃ sc l₁ l₂,
        buildCandidates db hoursT assignedT nightsT doctors shift d =
          l₁ ++ (doc, sc) :: l₂ ∧
        (∀ p ∈ buildCandidates db hoursT assignedT nightsT doctors shift d,
          sc ≤ p.2) ∧
        ∀ p ∈ l₁, sc < p.2) := by
  constructor
  · rw [find_best_eq db hoursT assignedT nightsT doctors cid shid d shift
      center hs hc, if_pos hallow]
    cases hsort : sortListBy scoreOrder
        (buildCandidates db hoursT assignedT nightsT doctors shift d) with
    | nil => simp [(sortListBy_eq_nil_iff _ _).mp hsort]
    | cons c rest =>
      constructor
      · intro habs; simp at habs
      · intro hnil
        rw [hnil] at hsort
        simp [sortListBy] at hsort
  · intro doc h
    rw [find_best_eq db hoursT assignedT nightsT doctors cid shid d shift
      center hs hc, if_pos hallow] at h
    cases hsort : sortListBy scoreOrder
        (buildCandidates db hoursT assignedT nightsT doctors shift d) with
    | nil => rw [hsort] at h; simp at h
    | cons c rest =>
      rw [hsort] at h
      have hcdoc : c.1 = doc := by simpa using h
      obtain ⟨l₁, l₂, hdec, hmin, hpre⟩ := sortListBy_score_head _ c rest hsort
      refine ⟨c.2, l₁, l₂, ?_, hmin, hpre⟩
      rw [← hcdoc]
      simpa using hdec

/-- Witness for C6 amended on the tie catalog with the single doctor
`docB`: the equivalence and the minimality description hold there. -/
theorem find_best_doctor_amended_witness :
    findShift dbTie 1 = some shiftTie ∧
    ((_find_best_doctor dbTie noHours noDates noDates [docB] 1 1 100 =
        none ↔
      buildCandidates dbTie noHours noDates noDates [docB] shiftTie 100 =
        []) ∧
    (∀ doc,
      _find_best_doctor dbTie noHours noDates noDates [docB] 1 1 100 =
        some doc →
      ∃ sc l₁ l₂,
        buildCandidates dbTie noHours noDates noDates [docB] shiftTie 100 =
          l₁ ++ (doc, sc) :: l₂ ∧
        (∀ p ∈ buildCandidates dbTie noHours noDates noDates [docB]
            shiftTie 100, sc ≤ p.2) ∧
        ∀ p ∈ l₁, sc < p.2)) :=
  ⟨rfl, find_best_doctor_amended dbTie noHours noDates noDates [docB] 1 1
    100 shiftTie { id := 1, code := "C1", allowedShifts := ["M8"] } rfl rfl
    (by decide)⟩

/-- C8: fairness balance scores — for a vector of per-active-doctor
counts, the balance score is 100 when the vector sums to 0 or is a
singleton, and otherwise equals `max(0, 100 − 2·cv)` for
`cv = stdev/mean · 100`; every score lies in `[0, 100]`, and the overall
fairness is the arithmetic mean of the four balance scores. -/
theorem fairness_balance_scores (v : List ℚ) (s : ℝ)
    (hnn : ∀ x ∈ v, 0 ≤ x) (hb : balanceSpec v s) :
    (v.sum = 0 → s = 100) ∧
    (v.length = 1 → s = 100) ∧
    (0 ≤ s ∧ s ≤ 100) ∧
    (v.sum ≠ 0 →
      ∃ sd : ℝ, 0 ≤ sd ∧ sd ^ 2 = (sampleVarianceQ v : ℝ) ∧
        s = max 0 (100 - 2 * (sd / (meanQ v : ℝ) * 100))) ∧
    (∀ b1 b2 b3 b4 o : ℝ, overallFairnessSpec b1 b2 b3 b4 o →
      o = (b1 + b2 + b3 + b4) / 4) := by
  by_cases hz : allZero v
  · have hs : s = 100 := by
      unfold balanceSpec at hb
      rwa [if_pos hz] at hb
    have hsum : v.sum = 0 := by
      have hall := List.all_eq_true.mp hz
      exact List.sum_eq_zero (fun x hx => by simpa using hall x hx)
    refine ⟨fun _ => hs, fun _ => hs, ?_, fun hne => absurd hsum hne,
      fun b1 b2 b3 b4 o ho => ho⟩
    rw [hs]
    norm_num
  · have hex : ∃ x ∈ v, x ≠ 0 := by
      by_contra hno
      push_neg at hno
      exact hz (List.all_eq_true.mpr (fun x hx => by simpa using hno x hx))
    obtain ⟨x, hxv, hx0⟩ := hex
    have hxpos : 0 < x := lt_of_le_of_ne (hnn x hxv) (Ne.symm hx0)
    have hsum : 0 < v.sum := lt_of_lt_of_le hxpos (List.single_le_sum hnn x hxv)
    have hlen : 0 < v.length := List.length_pos.mpr (List.ne_nil_of_mem hxv)
    have hmean : 0 < meanQ v := by
      unfold meanQ
      apply div_pos hsum
      exact_mod_cast hlen
    have hb' : ∃ sd : ℝ, 0 ≤ sd ∧ sd ^ 2 = (sampleVarianceQ v : ℝ) ∧
        s = max 0 (100 - (sd / (meanQ v : ℝ) * 100) * 2) := by
      unfold balanceSpec at hb
      rwa [if_neg hz, if_neg (ne_of_gt hmean)] at hb
    obtain ⟨sd, hsd0, hsdsq, hseq⟩ := hb'
    have hmeanR : (0 : ℝ) < (meanQ v : ℝ) := by exact_mod_cast hmean
    have hq0 : 0 ≤ (sd / (meanQ v : ℝ) * 100) * 2 := by
      have hdiv : 0 ≤ sd / (meanQ v : ℝ) := div_nonneg hsd0 (le_of_lt hmeanR)
      have h100 : 0 ≤ sd / (meanQ v : ℝ) * 100 := by
        apply mul_nonneg hdiv
        norm_num
      apply mul_nonneg h100
      norm_num
    have hub : s ≤ 100 := by
      rw [hseq]
      apply max_le (by norm_num)
      linarith
    have hlb : 0 ≤ s := by
      rw [hseq]
      exact le_max_left _ _
    refine ⟨fun h0 => absurd h0 (ne_of_gt hsum), ?_, ⟨hlb, hub⟩, ?_,
      fun b1 b2 b3 b4 o ho => ho⟩
    · intro h1
      have hvar : sampleVarianceQ v = 0 := by
        unfold sampleVarianceQ
        rw [if_pos (by omega)]
      have hsd : sd = 0 := by
        have hsq : sd ^ 2 = 0 := by
          rw [hsdsq, hvar]
          norm_num
        exact (pow_eq_zero_iff (two_ne_zero)).mp hsq
      rw [hseq, hsd]
      norm_num
    · intro _
      refine ⟨sd, hsd0, hsdsq, ?_⟩
      rw [hseq]
      congr 1
      ring

/-- Witness for C8 on the count vector `[0, 0, 0, 4]`, whose sample
variance is exactly 4 (standard deviation 2, `cv = 200`): the returned
score is `max(0, 100 − 400) = 0`. -/
theorem fairness_balance_scores_witness :
    (∀ x ∈ ([0, 0, 0, 4] : List ℚ), 0 ≤ x) ∧
    balanceSpec [0, 0, 0, 4] 0 ∧
    (0 : ℝ) ≤ 0 ∧ (0 : ℝ) ≤ 100 := by
  have hnn : ∀ x ∈ ([0, 0, 0, 4] : List ℚ), 0 ≤ x := by
    intro x hx
    fin_cases hx <;> norm_num
  have hm : meanQ [0, 0, 0, 4] = 1 := by
    norm_num [meanQ]
  have hv : sampleVarianceQ [0, 0, 0, 4] = 4 := by
    unfold sampleVarianceQ
    rw [if_neg (by norm_num)]
    simp only [hm]
    norm_num
  have hb : balanceSpec [0, 0, 0, 4] 0 := by
    unfold balanceSpec
    rw [if_neg (by norm_num [allZero]), if_neg (by rw [hm]; norm_num)]
    refine ⟨2, by norm_num, ?_, ?_⟩
    · rw [hv]
      norm_num
    · rw [hm]
      rw [show ((1 : ℚ) : ℝ) = 1 from by norm_num]
      rw [max_eq_left (by norm_num)]
  exact ⟨hnn, hb, (fairness_balance_scores [0, 0, 0, 4] 0 hnn hb).2.2.1⟩

theorem found_schedule_id (db : DB) (sid : ℕ) (sched : Schedule)
    (hfind : findSchedule db sid = some sched) : sched.id = sid := by
  have hfind' : db.schedules.find? (fun s => s.id == sid) = some sched := hfind
  simpa using List.find?_some hfind'

/-- When `validate_schedule` reports a valid schedule, no violation in
the concatenated output of the six sub-validators has severity error. -/
theorem validate_no_error (db : DB) (sid : ℕ) (sched : Schedule)
    (hfind : findSchedule db sid = some sched)
    (hvalid : (validate_schedule db sid).is_valid = true) :
    ∀ v ∈ _validate_monthly_hours db sched ++
        _validate_consecutive_shifts db sched ++
        _validate_coverage db sched ++ _validate_leave_conflicts db sched ++
        _validate_double_bookings db sched ++
        _validate_center_shifts db sched,
      v.severity ≠ Severity.error := by
  have h0 : countSeverity (_validate_monthly_hours db sched ++
      _validate_consecutive_shifts db sched ++
      _validate_coverage db sched ++ _validate_leave_conflicts db sched ++
      _validate_double_bookings db sched ++
      _validate_center_shifts db sched) Severity.error = 0 := by
    have hv := hvalid
    simp only [validate_schedule, hfind] at hv
    simpa using hv
  intro v hv hsev
  have hnp := List.countP_eq_zero.mp h0 v hv
  simp [hsev] at hnp

theorem pairwise_of_bounded_counts (l : List Assignment)
    (h : ∀ k : ℕ × ℤ,
      l.countP (fun a => a.doctorId == k.1 && a.date == k.2) ≤ 1) :
    l.Pairwise (fun a b => ¬(a.doctorId = b.doctorId ∧ a.date = b.date)) := by
  induction l with
  | nil => exact List.Pairwise.nil
  | cons x t ih =>
    refine List.Pairwise.cons ?_ (ih (fun k => ?_))
    · intro b hb hab
      obtain ⟨h1, h2⟩ := hab
      have hx : (x :: t).countP
          (fun a => a.doctorId == x.doctorId && a.date == x.date) ≤ 1 :=
        h (x.doctorId, x.date)
      rw [List.countP_cons] at hx
      have hpx : (fun a => a.doctorId == x.doctorId && a.date == x.date) x =
          true := by simp
      have hpb : (fun a => a.doctorId == x.doctorId && a.date == x.date) b =
          true := by simp [← h1, ← h2]
      have hcb : 0 < t.countP
          (fun a => a.doctorId == x.doctorId && a.date == x.date) :=
        List.countP_pos_iff.mpr ⟨b, hb, hpb⟩
      rw [if_pos hpx] at hx
      omega
    · have hk := h k
      rw [List.countP_cons] at hk
      by_cases hpx : (fun a => a.doctorId == k.1 && a.date == k.2) x = true
      · rw [if_pos hpx] at hk
        omega
      · rw [if_neg hpx] at hk
        omega

/-- C1: validator completeness — when `validate_schedule` returns
`is_valid = true`, every assignment's shift code is allowed at its
center, no two assignments of the schedule share `(doctor, date)`, no
approved leave covers any assignment's date, and every mandatory
coverage template has at least `min_doctors` matching assignments on
every day of the schedule's month. -/
theorem validator_completeness (db : DB) (sid : ℕ) (sched : Schedule)
    (hfind : findSchedule db sid = some sched)
    (hvalid : (validate_schedule db sid).is_valid = true) :
    (∀ a ∈ scheduleAssignments db sid, ∀ c s,
        findCenter db a.centerId = some c → findShift db a.shiftId = some s →
        s.code ∈ c.allowedShifts) ∧
    (scheduleAssignments db sid).Pairwise
      (fun a b => ¬(a.doctorId = b.doctorId ∧ a.date = b.date)) ∧
    (∀ a ∈ scheduleAssignments db sid,
      leaveCovering db a.doctorId a.date = none) ∧
    (∀ t ∈ db.templates, t.isMandatory = true →
      ∀ d ∈ monthDates sched.year sched.month,
        t.minDoctors ≤ countSlot db sid t.centerId t.shiftId d) := by
  have hsid : sched.id = sid := found_schedule_id db sid sched hfind
  have hall := validate_no_error db sid sched hfind hvalid
  have hCen : ∀ v ∈ _validate_center_shifts db sched,
      v.severity ≠ Severity.error := by
    intro v hv
    exact hall v (by simp [List.mem_append, hv])
  have hLeav : ∀ v ∈ _validate_leave_conflicts db sched,
      v.severity ≠ Severity.error := by
    intro v hv
    exact hall v (by simp [List.mem_append, hv])
  have hDbl : ∀ v ∈ _validate_double_bookings db sched,
      v.severity ≠ Severity.error := by
    intro v hv
    exact hall v (by simp [List.mem_append, hv])
  have hCov : ∀ v ∈ _validate_coverage db sched,
      v.severity ≠ Severity.error := by
    intro v hv
    exact hall v (by simp [List.mem_append, hv])
  rw [← hsid]
  refine ⟨?_, ?_, ?_, ?_⟩
  · intro a ha c s hc hs
    by_contra hnot
    have hvmem : ({ vtype := ViolationType.invalidShiftForCenter, severity := Severity.error, doctorId := some a.doctorId, centerId := some c.id, shiftId := some s.id, date := some a.date } : Violation) ∈ _validate_center_shifts db sched := by
      unfold _validate_center_shifts
      refine List.mem_flatten.mpr ⟨_, List.mem_map_of_mem _ ha, ?_⟩
      rw [hc, hs]
      simp [hnot]
    exact hCen _ hvmem rfl
  · apply pairwise_of_bounded_counts
    intro k
    by_contra hgt
    push_neg at hgt
    have hk1 : 1 < countKey db sched.id k := hgt
    have hpos : 0 < countKey db sched.id k := by omega
    obtain ⟨a, ha, hpa⟩ := List.countP_pos_iff.mp hpos
    have hk : (a.doctorId, a.date) = k := by
      rcases k with ⟨k1, k2⟩
      simp at hpa
      simp [hpa.1, hpa.2]
    have hkmem : k ∈ doubleKeys db sched.id := by
      unfold doubleKeys
      apply List.mem_dedup.mpr
      rw [← hk]
      exact List.mem_map_of_mem _ ha
    have hvmem : ({ vtype := ViolationType.doubleBooking, severity := Severity.error, doctorId := some k.1, date := some k.2 } : Violation) ∈ _validate_double_bookings db sched := by
      unfold _validate_double_bookings
      refine List.mem_flatten.mpr ⟨_, List.mem_map_of_mem _ hkmem, ?_⟩
      simp [hk1]
    exact hDbl _ hvmem rfl
  · intro a ha
    cases hl : leaveCovering db a.doctorId a.date with
    | none => rfl
    | some l =>
      exfalso
      have hvmem : ({ vtype := ViolationType.leaveConflict, severity := Severity.error, doctorId := some a.doctorId, date := some a.date } : Violation) ∈ _validate_leave_conflicts db sched := by
        unfold _validate_leave_conflicts
        refine List.mem_flatten.mpr ⟨_, List.mem_map_of_mem _ ha, ?_⟩
        rw [hl]
        simp
      exact hLeav _ hvmem rfl
  · intro t ht hm d hd
    by_contra hlt
    push_neg at hlt
    have htm : t ∈ mandatoryTemplates db :=
      List.mem_filter.mpr ⟨ht, by simp [hm]⟩
    have hvmem : ({ vtype := ViolationType.insufficientCoverage, severity := Severity.error, centerId := some t.centerId, shiftId := some t.shiftId, date := some d } : Violation) ∈ _validate_coverage db sched := by
      unfold _validate_coverage
      refine List.mem_flatten.mpr ⟨_, List.mem_map_of_mem _ hd, ?_⟩
      refine List.mem_flatten.mpr ⟨_, List.mem_map_of_mem _ htm, ?_⟩
      simp [hlt]
    exact hCov _ hvmem rfl

/-- Witness for C1 on the fully covered February 2025 catalog: the
validator accepts it and all four invariants hold. -/
theorem validator_completeness_witness :
    (validate_schedule dbW 1).is_valid = true ∧
    ((∀ a ∈ scheduleAssignments dbW 1, ∀ c s,
        findCenter dbW a.centerId = some c →
        findShift dbW a.shiftId = some s → s.code ∈ c.allowedShifts) ∧
    (scheduleAssignments dbW 1).Pairwise
      (fun a b => ¬(a.doctorId = b.doctorId ∧ a.date = b.date)) ∧
    (∀ a ∈ scheduleAssignments dbW 1,
      leaveCovering dbW a.doctorId a.date = none) ∧
    (∀ t ∈ dbW.templates, t.isMandatory = true →
      ∀ d ∈ monthDates schedW.year schedW.month,
        t.minDoctors ≤ countSlot dbW 1 t.centerId t.shiftId d)) :=
  ⟨by decide, validator_completeness dbW 1 schedW rfl (by decide)⟩

theorem DB_eq_of_fields (a b : DB) (h1 : a.users = b.users)
    (h2 : a.doctors = b.doctors) (h3 : a.centers = b.centers)
    (h4 : a.shifts = b.shifts) (h5 : a.templates = b.templates)
    (h6 : a.leaves = b.leaves) (h7 : a.schedules = b.schedules)
    (h8 : a.assignments = b.assignments) : a = b := by
  cases a
  cases b
  simp_all

theorem dbExtends_refl (db : DB) (sid : ℕ) : DbExtends db db sid :=
  ⟨rfl, rfl, rfl, rfl, rfl, rfl, rfl,
    ⟨[], (List.append_nil _).symm, by simp⟩⟩

theorem dbExtends_trans (a b c : DB) (sid : ℕ) (h1 : DbExtends a b sid)
    (h2 : DbExtends b c sid) : DbExtends a c sid := by
  obtain ⟨l1, hb, hl1⟩ := h1.append
  obtain ⟨l2, hc, hl2⟩ := h2.append
  refine ⟨h2.users_eq.trans h1.users_eq, h2.doctors_eq.trans h1.doctors_eq,
    h2.centers_eq.trans h1.centers_eq, h2.shifts_eq.trans h1.shifts_eq,
    h2.templates_eq.trans h1.templates_eq, h2.leaves_eq.trans h1.leaves_eq,
    h2.schedules_eq.trans h1.schedules_eq, l1 ++ l2, ?_, ?_⟩
  · rw [hc, hb, List.append_assoc]
  · intro x hx
    rcases List.mem_append.mp hx with hx | hx
    · exact hl1 x hx
    · exact hl2 x hx

theorem fillOne_extends (sid : ℕ) (doctors : List Doctor)
    (t : CoverageTemplate) (d : ℤ) (st : BuildState) :
    DbExtends st.db (fillOne sid doctors t d st).db sid := by
  cases hfb : _find_best_doctor st.db st.hoursT st.assignedT st.nightsT
      doctors t.centerId t.shiftId d with
  | none =>
    simp only [fillOne, hfb]
    exact dbExtends_refl _ _
  | some doc =>
    simp only [fillOne, hfb]
    exact ⟨rfl, rfl, rfl, rfl, rfl, rfl, rfl,
      ⟨[{ id := 0, scheduleId := sid, doctorId := doc.id,
          centerId := t.centerId, shiftId := t.shiftId, date := d }],
        rfl, by simp⟩⟩

theorem fillN_extends (sid : ℕ) (doctors : List Doctor)
    (t : CoverageTemplate) (d : ℤ) (n : ℕ) (st : BuildState) :
    DbExtends st.db (fillN sid doctors t d n st).db sid := by
  induction n generalizing st with
  | zero => exact dbExtends_refl _ _
  | succ n ih =>
    exact dbExtends_trans _ _ _ _ (fillOne_extends sid doctors t d st)
      (ih (fillOne sid doctors t d st))

theorem processTemplate_extends (sid : ℕ) (doctors : List Doctor) (d : ℤ)
    (st : BuildState) (t : CoverageTemplate) :
    DbExtends st.db (processTemplate sid doctors d st t).db sid :=
  fillN_extends sid doctors t d _ st

theorem processDay_extends (sid : ℕ) (doctors : List Doctor)
    (templates : List CoverageTemplate) (st : BuildState) (d : ℤ) :
    DbExtends st.db (processDay sid doctors templates st d).db sid := by
  induction templates generalizing st with
  | nil => exact dbExtends_refl _ _
  | cons t ts ih =>
    exact dbExtends_trans _ _ _ _ (processTemplate_extends sid doctors d st t)
      (ih (processTemplate sid doctors d st t))

theorem runDays_extends (sid : ℕ) (doctors : List Doctor)
    (templates : List CoverageTemplate) (dates : List ℤ) (st : BuildState) :
    DbExtends st.db (runDays sid doctors templates dates st).db sid := by
  induction dates generalizing st with
  | nil => exact dbExtends_refl _ _
  | cons d ds ih =>
    exact dbExtends_trans _ _ _ _
      (processDay_extends sid doctors templates st d)
      (ih (processDay sid doctors templates st d))

theorem clearAssignments_idem (db : DB) (sid : ℕ) :
    clearAssignments (clearAssignments db sid) sid =
      clearAssignments db sid := by
  apply DB_eq_of_fields <;> try rfl
  show (db.assignments.filter (fun a => a.scheduleId != sid)).filter
      (fun a => a.scheduleId != sid) = db.assignments.filter
      (fun a => a.scheduleId != sid)
  rw [List.filter_filter]
  apply List.filter_congr
  intro a _
  exact Bool.and_self _

theorem clearAssignments_of_extends (db0 db1 : DB) (sid : ℕ)
    (h : DbExtends db0 db1 sid) :
    clearAssignments db1 sid = clearAssignments db0 sid := by
  obtain ⟨l, ha, hmem⟩ := h.append
  apply DB_eq_of_fields
  · exact h.users_eq
  · exact h.doctors_eq
  · exact h.centers_eq
  · exact h.shifts_eq
  · exact h.templates_eq
  · exact h.leaves_eq
  · exact h.schedules_eq
  · show db1.assignments.filter (fun a => a.scheduleId != sid) =
      db0.assignments.filter (fun a => a.scheduleId != sid)
    rw [ha, List.filter_append]
    have hnil : l.filter (fun a => a.scheduleId != sid) = [] := by
      apply List.filter_eq_nil_iff.mpr
      intro a hal
      simp [hmem a hal]
    rw [hnil, List.append_nil]

/-- With `clear_existing = true`, the result of `build_schedule` depends
on the database only through the schedule row and the cleared state. -/
theorem build_eq_of_clear_eq (dbA dbB : DB) (sid : ℕ) (sched : Schedule)
    (h1 : findSchedule dbA sid = some sched)
    (h2 : findSchedule dbB sid = some sched)
    (hc : clearAssignments dbA sid = clearAssignments dbB sid)
    (ht : mandatoryTemplates (clearAssignments dbB sid) ≠ [])
    (hd : activeDoctors (clearAssignments dbB sid) ≠ []) :
    build_schedule dbA sid true = build_schedule dbB sid true := by
  simp only [build_schedule, h1, h2, if_true]
  rw [hc]
  simp only [if_neg ht, if_neg hd]

/-- C7: idempotence of rebuild — running `build_schedule` with
`clear_existing = true` twice in succession returns the same result and
the same final database as a single run; in particular the schedule's
final assignment set is the same. -/
theorem build_idempotent (db : DB) (sid : ℕ) :
    build_schedule (build_schedule db sid true).2 sid true =
      build_schedule db sid true ∧
    scheduleAssignments
        (build_schedule (build_schedule db sid true).2 sid true).2 sid =
      scheduleAssignments (build_schedule db sid true).2 sid := by
  have main : build_schedule (build_schedule db sid true).2 sid true =
      build_schedule db sid true := by
    cases hfs : findSchedule db sid with
    | none =>
      have h1 : (build_schedule db sid true).2 = db := by
        simp [build_schedule, hfs]
      rw [h1]
    | some sched =>
      by_cases ht : mandatoryTemplates (clearAssignments db sid) = []
      · have h1 : (build_schedule db sid true).2 = db := by
          simp [build_schedule, hfs, ht]
        rw [h1]
      · by_cases hd : activeDoctors (clearAssignments db sid) = []
        · have h1 : (build_schedule db sid true).2 = db := by
            simp [build_schedule, hfs, ht, hd]
          rw [h1]
        · have hbuild : build_schedule db sid true =
              ({ success := (runDays sid (activeDoctors (clearAssignments db sid)) (mandatoryTemplates (clearAssignments db sid)) (monthDates sched.year sched.month) (initState (clearAssignments db sid) sid)).unfilled == 0, assignments_created := (runDays sid (activeDoctors (clearAssignments db sid)) (mandatoryTemplates (clearAssignments db sid)) (monthDates sched.year sched.month) (initState (clearAssignments db sid) sid)).created, slots_unfilled := (runDays sid (activeDoctors (clearAssignments db sid)) (mandatoryTemplates (clearAssignments db sid)) (monthDates sched.year sched.month) (initState (clearAssignments db sid) sid)).unfilled, warnings := (runDays sid (activeDoctors (clearAssignments db sid)) (mandatoryTemplates (clearAssignments db sid)) (monthDates sched.year sched.month) (initState (clearAssignments db sid) sid)).warnings.take 50 },
               (runDays sid (activeDoctors (clearAssignments db sid)) (mandatoryTemplates (clearAssignments db sid)) (monthDates sched.year sched.month) (initState (clearAssignments db sid) sid)).db) := by
            simp only [build_schedule, hfs, if_true]
            rw [if_neg ht, if_neg hd]
          have hext : DbExtends (clearAssignments db sid)
              (runDays sid (activeDoctors (clearAssignments db sid))
                (mandatoryTemplates (clearAssignments db sid))
                (monthDates sched.year sched.month)
                (initState (clearAssignments db sid) sid)).db sid := by
            have h0 := runDays_extends sid
              (activeDoctors (clearAssignments db sid))
              (mandatoryTemplates (clearAssignments db sid))
              (monthDates sched.year sched.month)
              (initState (clearAssignments db sid) sid)
            exact h0
          have hfs2 : findSchedule (build_schedule db sid true).2 sid =
              some sched := by
            rw [hbuild]
            show ((runDays sid (activeDoctors (clearAssignments db sid))
              (mandatoryTemplates (clearAssignments db sid))
              (monthDates sched.year sched.month)
              (initState (clearAssignments db sid) sid)).db).schedules.find?
                (fun s => s.id == sid) = some sched
            rw [hext.schedules_eq]
            exact hfs
          have hclear2 : clearAssignments (build_schedule db sid true).2 sid =
              clearAssignments db sid := by
            rw [hbuild]
            rw [clearAssignments_of_extends _ _ sid hext]
            exact clearAssignments_idem db sid
          exact build_eq_of_clear_eq _ db sid sched hfs2 hfs hclear2 ht hd
  exact ⟨main, by rw [main]⟩

theorem get_max_hours_congr (db db' : DB) (doc : Doctor)
    (h : db.users = db'.users) :
    _get_max_hours db doc = _get_max_hours db' doc := by
  unfold _get_max_hours doctorUser findUser
  rw [h]

theorem get_max_hours_nonneg (db : DB) (doc : Doctor) :
    0 ≤ _get_max_hours db doc := by
  unfold _get_max_hours
  cases h : doctorUser db doc with
  | none => simp [h]
  | some u =>
    simp only [h]
    unfold maxHoursOfUser
    split <;> norm_num

theorem doctorScheduleHours_append (db : DB) (a : Assignment) (sid did : ℕ) :
    doctorScheduleHours (appendAssignment db a) sid did =
      doctorScheduleHours db sid did +
        (if a.scheduleId == sid && a.doctorId == did then
          shiftHours db a.shiftId else 0) := by
  show (((db.assignments ++ [a]).filter
      (fun x => x.scheduleId == sid && x.doctorId == did)).map
      (fun x => shiftHours db x.shiftId)).sum =
    doctorScheduleHours db sid did +
      (if a.scheduleId == sid && a.doctorId == did then
        shiftHours db a.shiftId else 0)
  rw [List.filter_append, List.map_append, List.sum_append]
  congr 1
  by_cases hpa : (a.scheduleId == sid && a.doctorId == did) = true
  · simp [List.filter, hpa]
  · simp [List.filter, hpa]

theorem doctorScheduleHours_cleared (db : DB) (sid did : ℕ) :
    doctorScheduleHours (clearAssignments db sid) sid did = 0 := by
  show (((db.assignments.filter (fun x => x.scheduleId != sid)).filter
      (fun x => x.scheduleId == sid && x.doctorId == did)).map
      (fun x => shiftHours db x.shiftId)).sum = 0
  rw [List.filter_filter]
  have hnil : db.assignments.filter
      (fun x => (x.scheduleId == sid && x.doctorId == did) &&
        x.scheduleId != sid) = [] := by
    apply List.filter_eq_nil_iff.mpr
    intro x _
    by_cases h : x.scheduleId = sid <;> simp [h]
  rw [hnil]
  rfl

theorem fillOne_capInv (db0 : DB) (sid : ℕ) (doctors : List Doctor)
    (hnd : (doctors.map (fun d0 => d0.id)).Nodup) (t : CoverageTemplate)
    (d : ℤ) (st : BuildState) (h : CapInv db0 sid doctors st) :
    CapInv db0 sid doctors (fillOne sid doctors t d st) := by
  cases hfb : _find_best_doctor st.db st.hoursT st.assignedT st.nightsT
      doctors t.centerId t.shiftId d with
  | none =>
    simp only [fillOne, hfb]
    exact ⟨h.users_eq, h.hours_acc, h.hours_cap, h.hours_other⟩
  | some doc =>
    obtain ⟨shift, hsf, hdmem, -, -, hcapb⟩ :=
      find_best_filters _ _ _ _ _ _ _ _ _ hfb
    simp only [fillOne, hfb, hsf]
    have hsh : shiftHours st.db t.shiftId = shift.hours := by
      unfold shiftHours
      rw [hsf]
    refine ⟨h.users_eq, ?_, ?_, ?_⟩
    · intro did
      rw [doctorScheduleHours_append]
      by_cases hde : did = doc.id
      · subst hde
        simp only [setFun, if_pos rfl]
        rw [h.hours_acc doc.id, hsh]
        simp
      · simp only [setFun, if_neg hde]
        rw [h.hours_acc did]
        have hne : ¬ (doc.id = did) := fun he => hde he.symm
        simp [hne]
    · intro doc' hdoc'
      by_cases he : doc'.id = doc.id
      · have hdd : doc' = doc := List.inj_on_of_nodup_map hnd hdoc' hdmem he
        subst hdd
        simp only [setFun, if_pos rfl]
        calc st.hoursT doc'.id + shift.hours ≤ _get_max_hours st.db doc' :=
              hcapb
          _ = _get_max_hours db0 doc' := get_max_hours_congr _ _ _ h.users_eq
      · simp only [setFun, if_neg he]
        exact h.hours_cap doc' hdoc'
    · intro did hnone
      rw [doctorScheduleHours_append]
      rw [h.hours_other did hnone]
      have hne : ¬ (doc.id = did) := hnone doc hdmem
      simp [hne]

theorem fillN_capInv (db0 : DB) (sid : ℕ) (doctors : List Doctor)
    (hnd : (doctors.map (fun d0 => d0.id)).Nodup) (t : CoverageTemplate)
    (d : ℤ) (n : ℕ) (st : BuildState) (h : CapInv db0 sid doctors st) :
    CapInv db0 sid doctors (fillN sid doctors t d n st) := by
  induction n generalizing st with
  | zero => exact h
  | succ n ih => exact ih _ (fillOne_capInv db0 sid doctors hnd t d st h)

theorem processTemplate_capInv (db0 : DB) (sid : ℕ) (doctors : List Doctor)
    (hnd : (doctors.map (fun d0 => d0.id)).Nodup) (d : ℤ) (st : BuildState)
    (t : CoverageTemplate) (h : CapInv db0 sid doctors st) :
    CapInv db0 sid doctors (processTemplate sid doctors d st t) :=
  fillN_capInv db0 sid doctors hnd t d _ st h

theorem processDay_capInv (db0 : DB) (sid : ℕ) (doctors : List Doctor)
    (hnd : (doctors.map (fun d0 => d0.id)).Nodup)
    (templates : List CoverageTemplate) (st : BuildState) (d : ℤ)
    (h : CapInv db0 sid doctors st) :
    CapInv db0 sid doctors (processDay sid doctors templates st d) := by
  induction templates generalizing st with
  | nil => exact h
  | cons t ts ih =>
    exact ih _ (processTemplate_capInv db0 sid doctors hnd d st t h)

theorem runDays_capInv (db0 : DB) (sid : ℕ) (doctors : List Doctor)
    (hnd : (doctors.map (fun d0 => d0.id)).Nodup)
    (templates : List CoverageTemplate) (dates : List ℤ) (st : BuildState)
    (h : CapInv db0 sid doctors st) :
    CapInv db0 sid doctors (runDays sid doctors templates dates st) := by
  induction dates generalizing st with
  | nil => exact h
  | cons d ds ih =>
    exact ih _ (processDay_capInv db0 sid doctors hnd templates st d h)

theorem capInv_init (db : DB) (sid : ℕ) (doctors : List Doctor) :
    CapInv db sid doctors (initState (clearAssignments db sid) sid) := by
  refine ⟨rfl, fun did => rfl, ?_, ?_⟩
  · intro doc _
    show doctorScheduleHours (clearAssignments db sid) sid doc.id ≤
      _get_max_hours db doc
    rw [doctorScheduleHours_cleared]
    exact get_max_hours_nonneg db doc
  · intro did _
    exact doctorScheduleHours_cleared db sid did

set_option maxRecDepth 16384 in
/-- C3 counterexample: with `clear_existing = false`, a manually inserted
200-hour assignment for Saudi doctor 1 (cap 160) survives a successful
build — doctor 2 covers every slot — so the claim fails for builds over
pre-existing assignments. -/
theorem build_hours_cap_cex :
    (build_schedule dbC3 1 false).1.success = true ∧
    ¬ (doctorScheduleHours (build_schedule dbC3 1 false).2 1 1 ≤
        _get_max_hours dbC3 { id := 1, userId := 1, isActive := true }) := by
  constructor
  · decide
  · decide

/-- C3 amended: after `build_schedule` with `clear_existing = true`
(doctor ids unique, as the primary key guarantees), every doctor's total
shift hours in the schedule stay within the doctor's cap (160 for Saudi,
192 otherwise); the original claim fails only when `clear_existing =
false` leaves pre-existing over-cap assignments in place. -/
theorem build_hours_cap_amended (db : DB) (sid : ℕ) (doc : Doctor)
    (hnd : (db.doctors.map (fun d0 => d0.id)).Nodup)
    (hmem : doc ∈ db.doctors)
    (hsuccess : (build_schedule db sid true).1.success = true) :
    doctorScheduleHours (build_schedule db sid true).2 sid doc.id ≤
      _get_max_hours db doc := by
  cases hfs : findSchedule db sid with
  | none => simp [build_schedule, hfs] at hsuccess
  | some sched =>
    by_cases ht : mandatoryTemplates (clearAssignments db sid) = []
    · simp [build_schedule, hfs, ht] at hsuccess
    · by_cases hd : activeDoctors (clearAssignments db sid) = []
      · simp [build_schedule, hfs, ht, hd] at hsuccess
      · have hbuild2 : (build_schedule db sid true).2 =
            (runDays sid (activeDoctors (clearAssignments db sid)) (mandatoryTemplates (clearAssignments db sid)) (monthDates sched.year sched.month) (initState (clearAssignments db sid) sid)).db := by
          simp only [build_schedule, hfs, if_true]
          rw [if_neg ht, if_neg hd]
        rw [hbuild2]
        have hndA : ((activeDoctors (clearAssignments db sid)).map
            (fun d0 => d0.id)).Nodup := by
          have hsub : List.Sublist (activeDoctors (clearAssignments db sid))
              db.doctors := by
            show List.Sublist (db.doctors.filter (fun d0 => d0.isActive))
              db.doctors
            exact List.filter_sublist _
          exact hnd.sublist (hsub.map _)
        have hinv : CapInv db sid (activeDoctors (clearAssignments db sid))
            (runDays sid (activeDoctors (clearAssignments db sid)) (mandatoryTemplates (clearAssignments db sid)) (monthDates sched.year sched.month) (initState (clearAssignments db sid) sid)) :=
          runDays_capInv db sid _ hndA _ _ _ (capInv_init db sid _)
        by_cases hact : doc.isActive = true
        · have hdm : doc ∈ activeDoctors (clearAssignments db sid) := by
            show doc ∈ db.doctors.filter (fun d0 => d0.isActive)
            exact List.mem_filter.mpr ⟨hmem, hact⟩
          have hcap := hinv.hours_cap doc hdm
          rw [← hinv.hours_acc doc.id]
          exact hcap
        · have hnone : ∀ doc' ∈ activeDoctors (clearAssignments db sid),
              doc'.id ≠ doc.id := by
            intro doc' hd' he
            have hdf : doc' ∈ db.doctors.filter (fun d0 => d0.isActive) := hd'
            have hmem' : doc' ∈ db.doctors := (List.mem_filter.mp hdf).1
            have heq : doc' = doc := List.inj_on_of_nodup_map hnd hmem' hmem he
            apply hact
            rw [← heq]
            exact (List.mem_filter.mp hdf).2
          rw [hinv.hours_other doc.id hnone]
          exact get_max_hours_nonneg db doc

set_option maxRecDepth 16384 in
/-- Witness for C3 amended: rebuilding the February catalog from scratch
succeeds and leaves doctor 1 at 28 hours, within the 160-hour cap. -/
theorem build_hours_cap_amended_witness :
    (dbW.doctors.map (fun d0 => d0.id)).Nodup ∧
    ({ id := 1, userId := 1, isActive := true } : Doctor) ∈ dbW.doctors ∧
    (build_schedule dbW 1 true).1.success = true ∧
    doctorScheduleHours (build_schedule dbW 1 true).2 1 1 ≤
      _get_max_hours dbW { id := 1, userId := 1, isActive := true } :=
  ⟨by decide, by decide, by decide,
   build_hours_cap_amended dbW 1 { id := 1, userId := 1, isActive := true }
     (by decide) (by decide) (by decide)⟩

end DoctorRoster
